import Mathlib

/-!
The serialized Excel write queue of `server.js`.

A shallow embedding of the queue of `src/app/server.js` (lines 14-103), of the
`/api/queue-status` handler (lines 240-250), of the `POST /api/survey` handler
(lines 253-291), of the `debugAuth` middleware (lines 217-237), of the row
`saveSurveyToExcel` builds (lines 328-368) with the headers of `createExcelFile` and
`createExcelTable`, and of the triggers and close paths of the survey widget
`src/web/exit-intent-survey.js`.

`server.js` runs on a single-threaded event loop: a handler runs without
interruption until it returns or reaches an `await`.  The embedding follows that
discipline.  Every handler is a function on the module state `Server`, run up to
its next suspension point, and the environment chooses which handler runs next
(`Event`): a call of `queueExcelWrite`, or the settling of a pending
`saveSurveyToExcel` call, which resumes the `processQueue` activation awaiting it.

* `Date.now()` / `new Date()` are readings of a `Clock`, a stream of numbers the
  environment supplies with each event; nothing is assumed about the readings.
* `saveSurveyToExcel` is the opaque persistence operation: its call is recorded in
  the trace and its outcome (`Except ε Unit`) is an input.
* The `resolve` / `reject` closures stored in a queue item are identified by the
  number of the promise they belong to (`Server.promises` counts the promises
  created so far); their invocations are recorded in the trace.
* `console.log` output is not modelled.
-/

namespace SurveyServer

/-- Successive readings of the system clock (milliseconds) within one handler run. -/
abbrev Clock := Nat → Nat

/-- The value returned by the next `Date.now()`. -/
def Clock.now (clk : Clock) : Nat := clk 0

/-- The clock after one reading has been consumed. -/
def Clock.next (clk : Clock) : Clock := fun k => clk (k + 1)

/-- Values passed to `reject`: `new Error(message)` built by the queue itself, or the
value caught from `saveSurveyToExcel`, passed on as it is. -/
inductive JsError (ε : Type) where
  | newError (message : String)
  | thrown (e : ε)
  deriving DecidableEq, Repr

/-- The object `{ data, resolve, reject, timestamp, requestId }` pushed on the queue.
`promise` stands for the pair `resolve`, `reject` of the promise created by the call. -/
structure QueueItem (α : Type) where
  data : α
  promise : Nat
  timestamp : Nat
  requestId : String
  deriving DecidableEq, Repr

/-- The object `queueStats` (lines 17-22); `lastProcessedAt` is `null` or the instant
of the ISO string stored. -/
structure QueueStats where
  totalProcessed : Nat
  totalErrors : Nat
  lastProcessedAt : Option Nat
  maxQueueSize : Nat
  deriving DecidableEq, Repr

/-- Observable actions, in the order they happen. -/
inductive Effect (α ε : Type) where
  /-- The statement `excelWriteQueue.push(queueItem)`. -/
  | push (promise : Nat) (data : α) (timestamp : Nat)
  /-- The call `saveSurveyToExcel(data)` made for the item of this promise. -/
  | saveSurveyToExcel (promise : Nat) (data : α)
  /-- The awaited `saveSurveyToExcel` call of this item fulfilled. -/
  | returned (promise : Nat)
  /-- The awaited `saveSurveyToExcel` call of this item threw `e`. -/
  | threw (promise : Nat) (e : ε)
  /-- The call `resolve()`. -/
  | resolve (promise : Nat)
  /-- The call `reject(err)`. -/
  | reject (promise : Nat) (err : JsError ε)
  deriving DecidableEq, Repr

/-- Module state of `server.js` as far as the queue is concerned.  `awaiting` holds the
local variables of every activation of `processQueue` that is suspended at
`await saveSurveyToExcel(data)`; `promises` and `trace` are bookkeeping of the
embedding. -/
structure Server (α ε : Type) where
  excelWriteQueue : List (QueueItem α)
  isProcessingQueue : Bool
  queueStats : QueueStats
  awaiting : List (QueueItem α)
  promises : Nat
  trace : List (Effect α ε)

/-- The state after the module has been loaded (lines 15-22). -/
def Server.init {α ε : Type} : Server α ε :=
  { excelWriteQueue := []
    isProcessingQueue := false
    queueStats := { totalProcessed := 0, totalErrors := 0, lastProcessedAt := none, maxQueueSize := 0 }
    awaiting := []
    promises := 0
    trace := [] }

/-- The message of the error built at line 51. -/
def queueTimeoutMessage : String := "Queue timeout"

/-- The message of the error built at line 85. -/
def queueFullMessage : String := "Queue is full, please try again later"

/-- The `while (excelWriteQueue.length > 0)` loop of `processQueue` (lines 40-71), run
from the loop head until the activation suspends at `await` or leaves the loop and
clears the flag.  The first argument is `excelWriteQueue` as it stands at the loop
head. -/
def processLoop {α ε : Type} : List (QueueItem α) → Clock → Server α ε → Server α ε
  | [], _, s => { s with isProcessingQueue := false }
  | item :: rest, clk, s =>
    let waitTime : Int := (clk.now : Int) - (item.timestamp : Int)
    if waitTime > 60000 then
      processLoop rest clk.next
        { s with
          excelWriteQueue := rest
          trace := s.trace ++ [Effect.reject item.promise (JsError.newError queueTimeoutMessage)]
          queueStats := { s.queueStats with totalErrors := s.queueStats.totalErrors + 1 } }
    else
      { s with
        excelWriteQueue := rest
        trace := s.trace ++ [Effect.saveSurveyToExcel item.promise item.data]
        awaiting := s.awaiting ++ [item] }

/-- The function `processQueue` (lines 25-72) from its call to its first suspension. -/
def processQueue {α ε : Type} (clk : Clock) (s : Server α ε) : Server α ε :=
  if s.isProcessingQueue || s.excelWriteQueue.length == 0 then s
  else
    let queueSize := s.excelWriteQueue.length
    let s1 : Server α ε :=
      { s with
        isProcessingQueue := true
        queueStats := { s.queueStats with maxQueueSize := max s.queueStats.maxQueueSize queueSize } }
    processLoop s1.excelWriteQueue clk s1

/-- The function `queueExcelWrite` (lines 75-103): the executor of the promise it
returns runs at once.  `requestId` is the random string of line 78. -/
def queueExcelWrite {α ε : Type} (data : α) (requestId : String) (clk : Clock)
    (s : Server α ε) : Server α ε :=
  let currentTime := clk.now
  let promise := s.promises
  let s0 : Server α ε := { s with promises := s.promises + 1 }
  if s0.excelWriteQueue.length > 100 then
    { s0 with trace := s0.trace ++ [Effect.reject promise (JsError.newError queueFullMessage)] }
  else
    let queueItem : QueueItem α :=
      { data := data, promise := promise, timestamp := currentTime, requestId := requestId }
    processQueue clk.next
      { s0 with
        excelWriteQueue := s0.excelWriteQueue ++ [queueItem]
        trace := s0.trace ++ [Effect.push promise data currentTime] }

/-- The rest of the loop body after `await saveSurveyToExcel(data)` (lines 59-67) for
the suspended activation number `i`, followed by the loop.  Without such an activation
nothing happens. -/
def resumeProcessQueue {α ε : Type} (i : Nat) (result : Except ε Unit) (clk : Clock)
    (s : Server α ε) : Server α ε :=
  match s.awaiting[i]? with
  | none => s
  | some item =>
    match result with
    | Except.ok _ =>
      let s1 : Server α ε :=
        { s with
          awaiting := s.awaiting.eraseIdx i
          trace := s.trace ++ [Effect.returned item.promise, Effect.resolve item.promise]
          queueStats :=
            { s.queueStats with
              totalProcessed := s.queueStats.totalProcessed + 1
              lastProcessedAt := some clk.now } }
      processLoop s1.excelWriteQueue clk.next s1
    | Except.error e =>
      let s1 : Server α ε :=
        { s with
          awaiting := s.awaiting.eraseIdx i
          trace := s.trace ++
            [Effect.threw item.promise e, Effect.reject item.promise (JsError.thrown e)]
          queueStats := { s.queueStats with totalErrors := s.queueStats.totalErrors + 1 } }
      processLoop s1.excelWriteQueue clk s1

/-- What the environment can do between two handler runs. -/
inductive Event (α ε : Type) where
  /-- A call `queueExcelWrite(data)`. -/
  | enqueue (data : α) (requestId : String) (clk : Clock)
  /-- The `saveSurveyToExcel` call awaited by activation `i` settles. -/
  | settle (i : Nat) (result : Except ε Unit) (clk : Clock)

/-- One handler run. -/
def step {α ε : Type} (s : Server α ε) : Event α ε → Server α ε
  | Event.enqueue data requestId clk => queueExcelWrite data requestId clk s
  | Event.settle i result clk => resumeProcessQueue i result clk s

/-- The state after a sequence of events, starting from `s`. -/
def runFrom {α ε : Type} (s : Server α ε) (es : List (Event α ε)) : Server α ε :=
  es.foldl step s

/-- The state after a sequence of events since the module was loaded. -/
def run {α ε : Type} (es : List (Event α ε)) : Server α ε :=
  runFrom Server.init es

/-- The number of binary digits of `n`, for `n` below `2 ^ fuel`. -/
def bitLength : Nat → Nat → Nat
  | 0, _ => 0
  | fuel + 1, n => if n = 0 then 0 else bitLength fuel (n / 2) + 1

/-- The double nearest to the rational `a / b`, ties to even, as a fraction (numerator,
denominator); `0` for `a = 0`.  This is the rounding of the double-precision `/` and
`*`; the values met here are far inside the range of normal doubles. -/
def roundDouble (a b : Nat) : Nat × Nat :=
  if a = 0 ∨ b = 0 then (0, 1)
  else
    let t : Int := (bitLength 4096 a : Int) - (bitLength 4096 b : Int)
    let e1 : Int := t - 52
    let e : Int :=
      if (a * 2 ^ (-e1).toNat) / (b * 2 ^ e1.toNat) ≥ 2 ^ 52 then e1 else e1 - 1
    let n := a * 2 ^ (-e).toNat
    let d := b * 2 ^ e.toNat
    let q := n / d
    let r := n % d
    let m := if 2 * r > d ∨ (2 * r = d ∧ q % 2 = 1) then q + 1 else q
    (m * 2 ^ e.toNat, 2 ^ (-e).toNat)

/-- The string `((num / den) * 100).toFixed(2)` for `den > 0`: the quotient and the
product are each rounded to the nearest double, and `toFixed(2)` takes the multiple of
`0.01` nearest to the exact value of that double, the larger one on a tie. -/
def toFixed2 (num den : Nat) : String :=
  let x1 := roundDouble num den
  let x2 := roundDouble (x1.1 * 100) x1.2
  let n := (200 * x2.1 + x2.2) / (2 * x2.2)
  toString (n / 100) ++ "." ++ (if n % 100 < 10 then "0" else "") ++ toString (n % 100)

/-- The expression of lines 246-248. -/
def successRate (stats : QueueStats) : String :=
  if stats.totalProcessed > 0 then
    toFixed2 stats.totalProcessed (stats.totalProcessed + stats.totalErrors) ++ "%"
  else
    "100%"

/-- The JSON object sent by `GET /api/queue-status` (lines 241-249). -/
structure QueueStatus where
  queueSize : Nat
  isProcessing : Bool
  stats : QueueStats
  maxQueueSize : Nat
  successRate : String
  deriving DecidableEq, Repr

/-- The handler of `GET /api/queue-status`: the response body; the state is only read. -/
def queueStatus {α ε : Type} (s : Server α ε) : QueueStatus :=
  { queueSize := s.excelWriteQueue.length
    isProcessing := s.isProcessingQueue
    stats := s.queueStats
    maxQueueSize := s.queueStats.maxQueueSize
    successRate := successRate s.queueStats }

/-! ### Reading the trace -/

/-- The record (promise, payload) of a `push`. -/
def Effect.pushed? {α ε : Type} : Effect α ε → Option (Nat × α)
  | Effect.push p d _ => some (p, d)
  | _ => none

/-- The record (promise, payload) of a `saveSurveyToExcel` call. -/
def Effect.saved? {α ε : Type} : Effect α ε → Option (Nat × α)
  | Effect.saveSurveyToExcel p d => some (p, d)
  | _ => none

/-- The promise rejected with the queue-timeout error, if the effect is that. -/
def Effect.timedOut? {α ε : Type} : Effect α ε → Option Nat
  | Effect.reject p (JsError.newError m) => if m = queueTimeoutMessage then some p else none
  | _ => none

/-- Whether the effect is `reject` with the queue-full error. -/
def Effect.isQueueFull {α ε : Type} : Effect α ε → Bool
  | Effect.reject _ (JsError.newError m) => decide (m = queueFullMessage)
  | _ => false

/-- Whether the effect is a call of `reject`, whatever the error. -/
def Effect.isReject {α ε : Type} : Effect α ε → Bool
  | Effect.reject _ _ => true
  | _ => false

/-- Whether the effect is a `saveSurveyToExcel` call that fulfilled. -/
def Effect.isReturned {α ε : Type} : Effect α ε → Bool
  | Effect.returned _ => true
  | _ => false

/-- Whether the effect is a `saveSurveyToExcel` call that threw. -/
def Effect.isThrew {α ε : Type} : Effect α ε → Bool
  | Effect.threw _ _ => true
  | _ => false

/-- The accepted records (promise, payload) in the order they were pushed. -/
def accepted {α ε : Type} (t : List (Effect α ε)) : List (Nat × α) :=
  t.filterMap Effect.pushed?

/-- The records handed to `saveSurveyToExcel`, in call order. -/
def persisted {α ε : Type} (t : List (Effect α ε)) : List (Nat × α) :=
  t.filterMap Effect.saved?

/-- The promises rejected with the queue-timeout error. -/
def timedOut {α ε : Type} (t : List (Effect α ε)) : List Nat :=
  t.filterMap Effect.timedOut?

/-- The records (promise, payload) still in the queue, head first. -/
def pending {α ε : Type} (s : Server α ε) : List (Nat × α) :=
  s.excelWriteQueue.map fun item => (item.promise, item.data)

/-! ### Atomic actions -/

/-- The atomic state changes the handlers are made of, without the control flow that
orders them.  Every handler run is a sequence of these (`step_micro`), so a property
kept by each of them holds after every handler run. -/
inductive Micro {α ε : Type} : Server α ε → Server α ε → Prop where
  | rejectFull (s : Server α ε) :
    Micro s
      { s with
        promises := s.promises + 1
        trace := s.trace ++ [Effect.reject s.promises (JsError.newError queueFullMessage)] }
  | push (s : Server α ε) (data : α) (requestId : String) (currentTime : Nat) :
    Micro s
      { s with
        promises := s.promises + 1
        excelWriteQueue := s.excelWriteQueue ++
          [{ data := data, promise := s.promises, timestamp := currentTime,
             requestId := requestId }]
        trace := s.trace ++ [Effect.push s.promises data currentTime] }
  | start (s : Server α ε) :
    Micro s
      { s with
        isProcessingQueue := true
        queueStats :=
          { s.queueStats with
            maxQueueSize := max s.queueStats.maxQueueSize s.excelWriteQueue.length } }
  | timeout (s : Server α ε) (item : QueueItem α) (rest : List (QueueItem α))
      (h : s.excelWriteQueue = item :: rest) :
    Micro s
      { s with
        excelWriteQueue := rest
        trace := s.trace ++ [Effect.reject item.promise (JsError.newError queueTimeoutMessage)]
        queueStats := { s.queueStats with totalErrors := s.queueStats.totalErrors + 1 } }
  | save (s : Server α ε) (item : QueueItem α) (rest : List (QueueItem α))
      (h : s.excelWriteQueue = item :: rest) :
    Micro s
      { s with
        excelWriteQueue := rest
        trace := s.trace ++ [Effect.saveSurveyToExcel item.promise item.data]
        awaiting := s.awaiting ++ [item] }
  | exit (s : Server α ε) (h : s.excelWriteQueue = []) :
    Micro s { s with isProcessingQueue := false }
  | settleOk (s : Server α ε) (i : Nat) (item : QueueItem α) (now : Nat)
      (h : s.awaiting[i]? = some item) :
    Micro s
      { s with
        awaiting := s.awaiting.eraseIdx i
        trace := s.trace ++ [Effect.returned item.promise, Effect.resolve item.promise]
        queueStats :=
          { s.queueStats with
            totalProcessed := s.queueStats.totalProcessed + 1
            lastProcessedAt := some now } }
  | settleErr (s : Server α ε) (i : Nat) (item : QueueItem α) (e : ε)
      (h : s.awaiting[i]? = some item) :
    Micro s
      { s with
        awaiting := s.awaiting.eraseIdx i
        trace := s.trace ++
          [Effect.threw item.promise e, Effect.reject item.promise (JsError.thrown e)]
        queueStats := { s.queueStats with totalErrors := s.queueStats.totalErrors + 1 } }

/-- Between two handler runs either no drain is active, the queue is empty and no
call is awaited, or one drain is active and awaits exactly one call. -/
def Quiescent {α ε : Type} (s : Server α ε) : Prop :=
  (s.isProcessingQueue = false ∧ s.excelWriteQueue = [] ∧ s.awaiting = []) ∨
  (s.isProcessingQueue = true ∧ s.awaiting.length = 1)

/-- The invariant behind the FIFO order: the accepted records that did not time out
are the records handed to `saveSurveyToExcel` followed by the pending ones, and
promise numbers are never reused. -/
structure FifoInv {α ε : Type} (s : Server α ε) : Prop where
  order : (accepted s.trace).filter (fun r => decide (r.1 ∉ timedOut s.trace)) =
    persisted s.trace ++ pending s
  fresh : ∀ r ∈ accepted s.trace, r.1 < s.promises
  freshOut : ∀ p ∈ timedOut s.trace, p < s.promises
  nodup : ((accepted s.trace).map Prod.fst).Nodup

/-! ### Sample inputs -/

/-- A clock that reads `t` at every reading. -/
def Clock.const (t : Nat) : Clock := fun _ => t

/-- A call `queueExcelWrite(n)` at time `t`. -/
def enqueueAt (t n : Nat) : Event Nat String :=
  Event.enqueue n "r" (Clock.const t)

/-- The awaited call fulfils at time `t`. -/
def fulfilAt (t : Nat) : Event Nat String :=
  Event.settle 0 (Except.ok ()) (Clock.const t)

/-- The awaited call throws `"boom"` at time `t`. -/
def failAt (t : Nat) : Event Nat String :=
  Event.settle 0 (Except.error "boom") (Clock.const t)

/-- Three submissions in a burst; the first two writes succeed, the third fails. -/
def burstOfThree : List (Event Nat String) :=
  [enqueueAt 0 1, enqueueAt 1 2, enqueueAt 2 3, fulfilAt 10, fulfilAt 20, failAt 30]

/-- The events of `n` submissions in a row at time 0, with payloads `0, 1, ...`. -/
def burst (n : Nat) : List (Event Nat String) := (List.range n).map (enqueueAt 0)

/-- The promise `p` exists, its record is not in the queue and no
`saveSurveyToExcel` call has been made for it. -/
def Absent {α ε : Type} (p : Nat) (s : Server α ε) : Prop :=
  p < s.promises ∧ (∀ item ∈ s.excelWriteQueue, item.promise ≠ p) ∧
    ∀ d, Effect.saveSurveyToExcel p d ∉ s.trace

/-- A queue item with payload `n` of promise `p`, enqueued at time `t`. -/
def sampleItem (p n t : Nat) : QueueItem Nat :=
  { data := n, promise := p, timestamp := t, requestId := "r" }

/-- The clock as the loop finds it when `processQueue` is resumed: after a fulfilled
call one reading has gone into `lastProcessedAt`. -/
def resumeClock {ε : Type} (result : Except ε Unit) (clk : Clock) : Clock :=
  match result with
  | Except.ok _ => clk.next
  | Except.error _ => clk

/-- The effects of lines 59-67 for the item of promise `p`. -/
def settleEffects {α ε : Type} (p : Nat) (result : Except ε Unit) : List (Effect α ε) :=
  match result with
  | Except.ok _ => [Effect.returned p, Effect.resolve p]
  | Except.error e => [Effect.threw p e, Effect.reject p (JsError.thrown e)]

/-- One write is in flight and the queue is empty, as after `queueExcelWrite(1)` at
time 0 on a fresh server. -/
def busyServer : Server Nat String := run [enqueueAt 0 1]

/-- Ten submissions in a burst; of the ten writes the third, sixth and ninth fail. -/
def mixedBatch : List (Event Nat String) :=
  burst 10 ++
    [fulfilAt 10, fulfilAt 20, failAt 30, fulfilAt 40, fulfilAt 50, failAt 60, fulfilAt 70,
      fulfilAt 80, failAt 90, fulfilAt 100]

/-- One submission whose write fails. -/
def failedOnce : List (Event Nat String) := [enqueueAt 0 1, failAt 10]

/-- The counters count the settled calls and the timeouts. -/
def StatsInv {α ε : Type} (s : Server α ε) : Prop :=
  s.queueStats.totalProcessed = s.trace.countP Effect.isReturned ∧
    s.queueStats.totalErrors = s.trace.countP Effect.isThrew + (timedOut s.trace).length

/-- Whether the effect is the push of the record of promise `p`. -/
def Effect.isPushOf {α ε : Type} (p : Nat) : Effect α ε → Bool
  | Effect.push q _ _ => decide (q = p)
  | _ => false

/-- Whether the effect is a `saveSurveyToExcel` call for the record of promise `p`. -/
def Effect.isSaveOf {α ε : Type} (p : Nat) : Effect α ε → Bool
  | Effect.saveSurveyToExcel q _ => decide (q = p)
  | _ => false

/-- Whether the effect is the call of the `resolve` callback of promise `p`. -/
def Effect.isResolveOf {α ε : Type} (p : Nat) : Effect α ε → Bool
  | Effect.resolve q => decide (q = p)
  | _ => false

/-- Whether the effect is a call of the `reject` callback of promise `p`. -/
def Effect.isRejectOf {α ε : Type} (p : Nat) : Effect α ε → Bool
  | Effect.reject q _ => decide (q = p)
  | _ => false

/-- Whether the effect is the queue-full rejection of promise `p`. -/
def Effect.isQueueFullOf {α ε : Type} (p : Nat) : Effect α ε → Bool
  | Effect.reject q (JsError.newError m) => decide (q = p) && decide (m = queueFullMessage)
  | _ => false

/-- How many times the record of promise `p` is in the queue. -/
def inQueue {α ε : Type} (p : Nat) (s : Server α ε) : Nat :=
  s.excelWriteQueue.countP fun item => decide (item.promise = p)

/-- How many awaited `saveSurveyToExcel` calls are for the record of promise `p`. -/
def inFlight {α ε : Type} (p : Nat) (s : Server α ε) : Nat :=
  s.awaiting.countP fun item => decide (item.promise = p)

/-- The account of the promise `p`: it is accepted or rejected as full at most once,
never before it is created, an accepted record is in the queue, in flight or
completed, and each `saveSurveyToExcel` call takes it out of the queue. -/
structure Account {α ε : Type} (p : Nat) (s : Server α ε) : Prop where
  place : s.trace.countP (Effect.isPushOf p) + s.trace.countP (Effect.isQueueFullOf p) =
    inQueue p s + inFlight p s + s.trace.countP (Effect.isResolveOf p) +
      s.trace.countP (Effect.isRejectOf p)
  once : s.trace.countP (Effect.isPushOf p) + s.trace.countP (Effect.isQueueFullOf p) ≤ 1
  fresh : s.promises ≤ p →
    s.trace.countP (Effect.isPushOf p) + s.trace.countP (Effect.isQueueFullOf p) = 0
  saved : s.trace.countP (Effect.isSaveOf p) + inQueue p s ≤ s.trace.countP (Effect.isPushOf p)

/-- The promise `p` exists and its record is not in the queue. -/
def Gone {α ε : Type} (p : Nat) (s : Server α ε) : Prop :=
  p < s.promises ∧ inQueue p s = 0

/-- Two submissions; the write of the first fails at a time the second has not timed
out. -/
def failThenNext : List (Event Nat String) := [enqueueAt 0 1, enqueueAt 5 2]

/-! ### The survey endpoint -/

/-- JavaScript values as they come out of the body parsers (`JSON.parse`, `qs`); a
number is the value of the double. -/
inductive JsValue where
  | undefined
  | null
  | bool (b : Bool)
  | number (x : Rat)
  | string (s : String)
  | array (items : List JsValue)
  | object (fields : List (String × JsValue))

/-- The conversion to boolean applied by `!`, `&&` and `||`: `undefined`, `null`,
`false`, `0` and `''` are falsy, everything else is truthy. -/
def JsValue.truthy : JsValue → Bool
  | JsValue.undefined => false
  | JsValue.null => false
  | JsValue.bool b => b
  | JsValue.number x => decide (x ≠ 0)
  | JsValue.string s => decide (s ≠ "")
  | JsValue.array _ => true
  | JsValue.object _ => true

/-- A plain object: its own properties, in insertion order. -/
abbrev JsObject := List (String × JsValue)

/-- Property read `o.key`: `undefined` when the object has no such property. -/
def JsObject.get (o : JsObject) (key : String) : JsValue :=
  match o.find? (fun kv => kv.1 == key) with
  | some kv => kv.2
  | none => JsValue.undefined

/-- Property write `o.key = v`. -/
def JsObject.set (o : JsObject) (key : String) (v : JsValue) : JsObject :=
  if o.any (fun kv => kv.1 == key) then
    o.map (fun kv => if kv.1 == key then (key, v) else kv)
  else
    o ++ [(key, v)]

/-- What the handler sends: the status code (200 unless `res.status` is called) and the
object passed to `res.json`. -/
structure Response where
  status : Nat
  body : JsObject

/-- The handler of `POST /api/survey` (lines 253-291) on the parsed body `req.body`,
which the body parsers always set to an object, so that nothing in the `try` block
throws and the `catch` branch (status 500) is not taken.  `toISOString` stands for
`Date.prototype.toISOString` on the instant read from the clock; the `.catch` callback
only logs.  The result is the response and the state when the handler returns. -/
def postSurvey {ε : Type} (toISOString : Nat → String) (body : JsObject)
    (requestId : String) (clk : Clock) (s : Server JsObject ε) :
    Response × Server JsObject ε :=
  let stamp := !(body.get "timestamp").truthy
  let surveyData : JsObject :=
    if stamp then body.set "timestamp" (JsValue.string (toISOString clk.now)) else body
  let clk1 : Clock := if stamp then clk.next else clk
  if !(surveyData.get "path").truthy && !(surveyData.get "page_url").truthy then
    ({ status := 400, body := [("error", JsValue.string "Page URL or path is required")] }, s)
  else
    let s1 := queueExcelWrite surveyData requestId clk1 s
    ({ status := 200
       body :=
        [("success", JsValue.bool true),
          ("message", JsValue.string "Survey data received and queued for processing"),
          ("timestamp", surveyData.get "timestamp"),
          ("queuePosition", JsValue.number (s1.excelWriteQueue.length + 1 : Nat))] }, s1)

/-- The payload as the handler passes it on: with `timestamp` filled in when it was
missing. -/
def stampedBody (toISOString : Nat → String) (body : JsObject) (clk : Clock) : JsObject :=
  if (body.get "timestamp").truthy then body
  else body.set "timestamp" (JsValue.string (toISOString clk.now))

/-- The clock left for `queueExcelWrite` by the handler. -/
def stampedClock (body : JsObject) (clk : Clock) : Clock :=
  if (body.get "timestamp").truthy then clk else clk.next

/-- A stand-in for `toISOString` in examples. -/
def sampleISO (t : Nat) : String := toString t

/-- A submission with a page URL and no path. -/
def sampleBody : JsObject :=
  [("page_url", JsValue.string "https://example.com/test"),
    ("timestamp", JsValue.string "2025-10-16T10:00:00.000Z")]

/-- A server with 101 records pending behind the write in flight, each accepted
through the survey endpoint. -/
def fullServer : Server JsObject String :=
  (List.range 102).foldl
    (fun s _ => (postSurvey sampleISO sampleBody "r" (Clock.const 0) s).2) Server.init

/-! ### The debug middleware -/

/-- The variables of `process.env` the debug middleware depends on; `none` is a
variable that is not set. -/
structure Env where
  NODE_ENV : Option String
  ENABLE_DEBUG_ENDPOINTS : Option String
  DEBUG_PASSWORD : Option String

/-- The constant `isProduction` (line 218). -/
def isProduction (env : Env) : Bool :=
  env.NODE_ENV == some "production"

/-- The constant `enableDebugEndpoints` (line 219). -/
def enableDebugEndpoints (env : Env) : Bool :=
  env.ENABLE_DEBUG_ENDPOINTS == some "true"

/-- Truthiness of a value that is a string or `undefined`. -/
def stringTruthy : Option String → Bool
  | none => false
  | some s => decide (s ≠ "")

/-- What the middleware does with a request: it calls `next()`, or it responds with a
status and `{ error }` and does not call `next`. -/
inductive AuthOutcome where
  | next
  | respond (status : Nat) (error : String)
  deriving DecidableEq, Repr

/-- The middleware `debugAuth` (lines 222-237); `authorization` is
`req.headers.authorization`.  The two constants are computed from the environment when
the module is loaded, `DEBUG_PASSWORD` is read at each request. -/
def debugAuth (env : Env) (authorization : Option String) : AuthOutcome :=
  if isProduction env && !enableDebugEndpoints env then
    AuthOutcome.respond 404 "Endpoint not found"
  else
    let debugPassword := env.DEBUG_PASSWORD
    if isProduction env && stringTruthy debugPassword then
      if !stringTruthy authorization ||
          authorization != some ("Bearer " ++ debugPassword.getD "undefined") then
        AuthOutcome.respond 401 "Unauthorized"
      else AuthOutcome.next
    else AuthOutcome.next

/-- Production with the debug endpoints enabled and the password `test123`. -/
def protectedEnv : Env :=
  { NODE_ENV := some "production", ENABLE_DEBUG_ENDPOINTS := some "true",
    DEBUG_PASSWORD := some "test123" }

/-- Production with the debug endpoints switched off and a password set. -/
def closedEnv : Env :=
  { NODE_ENV := some "production", ENABLE_DEBUG_ENDPOINTS := some "false",
    DEBUG_PASSWORD := some "test123" }

/-- A test run: not production, debug endpoints switched off. -/
def testEnv : Env :=
  { NODE_ENV := some "test", ENABLE_DEBUG_ENDPOINTS := some "false",
    DEBUG_PASSWORD := some "test123" }

/-- Production with the debug endpoints enabled and no password set. -/
def openEnv : Env :=
  { NODE_ENV := some "production", ENABLE_DEBUG_ENDPOINTS := some "true",
    DEBUG_PASSWORD := none }

/-- The handler of `GET /api/queue-status` (lines 240-250): the status code, the body
passed to `res.json` and the module state when the handler returns; the handler
assigns to no variable. -/
def getQueueStatus {α ε : Type} (s : Server α ε) : Nat × QueueStatus × Server α ε :=
  (200, queueStatus s, s)

/-! ### The row written by `saveSurveyToExcel` -/

/-- The expression `a || b`. -/
def JsValue.or (a b : JsValue) : JsValue :=
  if a.truthy then a else b

/-- The date of a time value: year, month (1-12) and day of the month in UTC. -/
structure CivilDate where
  year : Int
  month : Int
  day : Int
  deriving DecidableEq, Repr

/-- The proleptic Gregorian date of day number `z` (days since 1 January 1970), which
is what `YearFromTime`, `MonthFromTime` and `DateFromTime` of ECMAScript compute. -/
def civilFromDays (z : Int) : CivilDate :=
  let z1 := z + 719468
  let era := z1 / 146097
  let doe := z1 % 146097
  let yoe := (doe - doe / 1460 + doe / 36524 - doe / 146096) / 365
  let doy := doe - (365 * yoe + yoe / 4 - yoe / 100)
  let mp := (5 * doy + 2) / 153
  let d := doy - (153 * mp + 2) / 5 + 1
  let m := if mp < 10 then mp + 3 else mp - 9
  { year := yoe + era * 400 + (if m ≤ 2 then 1 else 0), month := m, day := d }

/-- The UTC date of the time value `t` (milliseconds since the epoch). -/
def dateOf (t : Int) : CivilDate := civilFromDays (t / 86400000)

/-- Hours, minutes, seconds and milliseconds of the time value `t` in UTC. -/
def hourOf (t : Int) : Int := t % 86400000 / 3600000

/-- Minutes within the hour. -/
def minuteOf (t : Int) : Int := t % 3600000 / 60000

/-- Seconds within the minute. -/
def secondOf (t : Int) : Int := t % 60000 / 1000

/-- Milliseconds within the second. -/
def milliOf (t : Int) : Int := t % 1000

/-- The decimal digit character of `n` modulo 10. -/
def digitChar (n : Nat) : Char := Char.ofNat (48 + n % 10)

/-- The last two decimal digits of `n`: `n` padded to two digits when `n < 100`. -/
def digits2 (n : Int) : List Char :=
  [digitChar (n.toNat / 10), digitChar n.toNat]

/-- The last three decimal digits. -/
def digits3 (n : Int) : List Char :=
  digitChar (n.toNat / 100) :: digits2 n

/-- The last four decimal digits. -/
def digits4 (n : Int) : List Char :=
  digitChar (n.toNat / 1000) :: digits3 n

/-- The year as `toISOString` writes it: four digits from 0 to 9999, otherwise a sign
and six digits. -/
def isoYear (y : Int) : List Char :=
  if 0 ≤ y ∧ y ≤ 9999 then digits4 y
  else
    (if y < 0 then '-' else '+') ::
      digitChar (y.natAbs / 100000) :: digitChar (y.natAbs / 10000) :: digits4 y.natAbs

/-- The characters of `new Date(t).toISOString()` for a valid time value `t`. -/
def isoChars (t : Int) : List Char :=
  isoYear (dateOf t).year ++ '-' :: digits2 (dateOf t).month ++ '-' :: digits2 (dateOf t).day ++
    'T' :: digits2 (hourOf t) ++ ':' :: digits2 (minuteOf t) ++ ':' :: digits2 (secondOf t) ++
    '.' :: digits3 (milliOf t) ++ ['Z']

/-- The method `String.prototype.replace` with a one-character string pattern: the
first occurrence is replaced. -/
def replaceFirst (pattern : Char) (replacement : List Char) : List Char → List Char
  | [] => []
  | c :: cs => if c = pattern then replacement ++ cs else c :: replaceFirst pattern replacement cs

/-- The expression `date.toISOString().replace('T', ' ').replace('Z', '').substring(0, 19)`
of lines 334 and 339. -/
def excelFormat (t : Int) : String :=
  String.mk (((replaceFirst 'Z' [] (replaceFirst 'T' [' '] (isoChars t))).take 19).drop 0)

/-- The first cell of the row (lines 330-341).  `parseDate` stands for the time value
of `new Date(value)`, `none` for an invalid date, on which `toISOString` throws a
`RangeError`; `now` is the time value of `new Date()`. -/
def excelTimestamp (parseDate : JsValue → Option Int) (now : Int) (data : JsObject) :
    Except String String :=
  if (data.get "timestamp").truthy then
    match parseDate (data.get "timestamp") with
    | none => Except.error "RangeError: Invalid time value"
    | some t => Except.ok (excelFormat t)
  else Except.ok (excelFormat now)

/-- The method `Array.prototype.join(', ')`; `toStr` stands for the string conversion of
an element that is neither `undefined` nor `null`. -/
def joinArray (toStr : JsValue → String) (items : List JsValue) : String :=
  ", ".intercalate (items.map fun v =>
    match v with
    | JsValue.undefined => ""
    | JsValue.null => ""
    | w => toStr w)

/-- The inner array of `rowData.values` (lines 343-368). -/
def rowValues (toStr : JsValue → String) (timestamp : String) (data : JsObject) :
    List JsValue :=
  [JsValue.string timestamp,
    (data.get "surveyId").or (JsValue.string ""),
    (data.get "submissionStage").or (JsValue.string ""),
    (data.get "trigger").or (JsValue.string ""),
    ((data.get "path").or (data.get "page_url")).or (JsValue.string ""),
    (data.get "selected").or (JsValue.string ""),
    (data.get "label").or (JsValue.string ""),
    (data.get "stars").or (JsValue.string ""),
    (data.get "audience").or (JsValue.string ""),
    (data.get "heardWhere").or (JsValue.string ""),
    (data.get "intent").or (JsValue.string ""),
    (data.get "ageGroup").or (JsValue.string ""),
    (data.get "gender").or (JsValue.string ""),
    (data.get "ethnicity").or (JsValue.string ""),
    (match data.get "barriers" with
      | JsValue.array items => JsValue.string (joinArray toStr items)
      | v => v.or (JsValue.string "")),
    (data.get "comments").or (JsValue.string ""),
    ((data.get "ua").or (data.get "user_agent")).or (JsValue.string ""),
    (data.get "resubmission").or (JsValue.bool false),
    (data.get "resubmissionCount").or (JsValue.number 0),
    (data.get "exited").or (JsValue.bool false),
    (data.get "userFingerprint").or (JsValue.string ""),
    (data.get "sessionId").or (JsValue.string "")]

/-- The row `saveSurveyToExcel` posts to the table (lines 328-368), or the error
thrown while it is built. -/
def rowData (parseDate : JsValue → Option Int) (toStr : JsValue → String) (now : Int)
    (data : JsObject) : Except String (List JsValue) :=
  match excelTimestamp parseDate now data with
  | Except.error e => Except.error e
  | Except.ok timestamp => Except.ok (rowValues toStr timestamp data)

/-- The header names written by `createExcelFile` (lines 426-432). -/
def headerNames : List String :=
  ["Timestamp", "Survey ID", "Submission Stage", "Trigger", "Page Path",
    "Rating Selected", "Rating Label", "Stars", "Audience", "Heard Where",
    "Intent", "Age Group", "Gender", "Ethnicity", "Barriers",
    "Comments", "User Agent", "Is Resubmission", "Resubmission Count", "Exited Early",
    "User Fingerprint", "Session ID"]

/-- The range the headers are written to by `createExcelFile` (line 440). -/
def headerRange : String := "A1:V1"

/-- The header names given by `createExcelTable` (lines 462-468). -/
def tableHeaderNames : List String :=
  ["Timestamp", "Survey ID", "Submission Stage", "Trigger", "Page Path",
    "Rating Selected", "Rating Label", "Stars", "Audience", "Heard Where",
    "Intent", "Age Group", "Gender", "Ethnicity", "Barriers",
    "Comments", "User Agent", "Is Resubmission", "Resubmission Count", "Exited Early",
    "User Fingerprint", "Session ID"]

/-- The address of the table created by `createExcelTable` (line 460). -/
def tableAddress : String := "A1:V1"

/-- The number of columns of a range `X1:Y1` whose columns are single letters. -/
def rangeColumns (address : String) : Nat :=
  match address.toList with
  | [c1, _, ':', c2, _] => c2.toNat + 1 - c1.toNat
  | _ => 0

/-- A stand-in for `new Date(value)` in examples: it knows one ISO string, everything
else is an invalid date. -/
def sampleParse : JsValue → Option Int
  | JsValue.string "2025-10-16T10:00:00.000Z" => some 1760608800000
  | _ => none

/-- A stand-in for the string conversion in examples. -/
def sampleToStr : JsValue → String
  | JsValue.string s => s
  | _ => "?"

/-- A submission stamped 2025-10-16T10:00:00.000Z. -/
def stampedSample : JsObject :=
  [("path", JsValue.string "/"), ("timestamp", JsValue.string "2025-10-16T10:00:00.000Z")]

/-! ### The survey widget (`exit-intent-survey.js`) -/

/-- The object kept in the variable `state` and in `localStorage` (lines 864-870 and
1125-1129); `submitted` tells whether the property is there. -/
structure StoredState where
  count : Nat
  lastTs : Nat
  sessionId : String
  submitted : Bool
  deriving DecidableEq, Repr

/-- What a handler reads from the browser when it runs. -/
structure Browser where
  /-- The value of `Date.now()`. -/
  now : Nat
  /-- The value of `new Date().toISOString()`. -/
  isoNow : String
  /-- The value of `location.pathname + location.search`. -/
  path : String
  /-- The value of `navigator.userAgent`. -/
  userAgent : String
  /-- The value of `createUserFingerprint()`. -/
  fingerprint : String
  /-- The session id built at lines 844 and 1104 when there is none yet. -/
  newSessionId : String

/-- The values the collectors `collectStep1`, `collectStep2` and `collectStep3`
(lines 525-613) compute from the form as it is filled in. -/
structure Answers where
  selected : JsValue
  label : JsValue
  stars : JsValue
  step1Comments : JsValue
  intent : JsValue
  audience : JsValue
  heardWhere : JsValue
  visitingReasonsOther : JsValue
  visitingForOther : JsValue
  heardWhereOther : JsValue
  ageGroup : JsValue
  gender : JsValue
  ethnicity : JsValue
  barriers : JsValue
  comments : JsValue

/-- The object returned by `collectStep1`. -/
def collectStep1 (a : Answers) : JsObject :=
  [("selected", a.selected), ("label", a.label), ("stars", a.stars),
    ("comments", a.step1Comments)]

/-- The object returned by `collectStep2`. -/
def collectStep2 (a : Answers) : JsObject :=
  [("intent", a.intent), ("audience", a.audience), ("heardWhere", a.heardWhere),
    ("_visitingReasonsOther", a.visitingReasonsOther),
    ("_visitingForOther", a.visitingForOther), ("_heardWhereOther", a.heardWhereOther)]

/-- The object returned by `collectStep3`. -/
def collectStep3 (a : Answers) : JsObject :=
  [("ageGroup", a.ageGroup), ("gender", a.gender), ("ethnicity", a.ethnicity),
    ("barriers", a.barriers), ("comments", a.comments)]

/-- The call `Object.assign(target, source)`, also the spread of `source` at the end of
an object literal. -/
def JsObject.assign (target source : JsObject) : JsObject :=
  source.foldl (fun o kv => o.set kv.1 kv.2) target

/-- The variables of the script and what it has registered with the browser. -/
structure Widget where
  /-- The variable `state`. -/
  state : Option StoredState
  suppressAuto : Bool
  /-- Whether `modal` is not `null`. -/
  modal : Bool
  /-- The step whose block is not hidden in the open modal. -/
  visibleStep : Nat
  fired : Bool
  armed : Bool
  /-- Whether `localStorage` holds `'1'` under `SESSION_KEY`. -/
  sessionShown : Bool
  /-- The value of `window.__ES_triggerSource`. -/
  triggerSource : String
  /-- Whether `onMouseOut` is registered for `mouseout` on the document. -/
  mouseoutListener : Bool
  /-- Whether a fallback timer is pending. -/
  fallbackTimer : Bool
  /-- The payloads passed to `submitSurvey`, oldest first. -/
  sent : List JsObject

/-- The constant `CONFIG.ttlDays`. -/
def ttlDays : Nat := 28

/-- The constant `CONFIG.armAfterMs`. -/
def armAfterMs : Nat := 10000

/-- The constant `CONFIG.topThresholdPx`. -/
def topThresholdPx : Int := 12

/-- The fallback delay chosen at lines 1058 and 1082 from `CONFIG.fallbackAfterMs`. -/
def fallbackDelay (isMobile : Bool) : Nat :=
  if isMobile then 45000 else 0

/-- The script from the TTL guard on (lines 186-197, 975-1063), for a page on which it
runs: `stored` is the parsed content of `localStorage` under `LS_KEY`, `engagedMs` the
value of `getSiteEngagementTime()`.  The age in days is compared exactly. -/
def loadPage (stored : Option StoredState) (sessionShown : Bool) (now engagedMs : Nat)
    (isMobile : Bool) : Widget :=
  let suppressAuto : Bool :=
    match stored with
    | some st => decide (st.lastTs ≠ 0) &&
        decide (((now : Int) - (st.lastTs : Int)) < (ttlDays : Int) * (1000 * 60 * 60 * 24))
    | none => false
  { state := stored
    suppressAuto := suppressAuto
    modal := false
    visibleStep := 1
    fired := false
    armed := !decide (engagedMs < armAfterMs)
    sessionShown := sessionShown
    triggerSource := "auto"
    mouseoutListener := !suppressAuto
    fallbackTimer := !suppressAuto && decide (fallbackDelay isMobile > 0)
    sent := [] }

/-- The function `canShow` (line 1005), `CONFIG.oncePerSession` being true. -/
def canShow (w : Widget) : Bool :=
  !w.fired && !w.sessionShown

/-- The function `openModal` (lines 615-965) as far as the variables go. -/
def openModal (w : Widget) : Widget :=
  if w.modal then w else { w with modal := true, visibleStep := 1 }

/-- The function `trigger` (lines 1007-1017). -/
def trigger (source : String) (force : Bool) (w : Widget) : Widget :=
  if !force && !canShow w then w
  else
    let w1 : Widget :=
      { w with
        fired := true
        sessionShown := if !force then true else w.sessionShown
        triggerSource := source }
    { openModal w1 with mouseoutListener := false, fallbackTimer := false }

/-- The listener `onMouseOut` (lines 1040-1050). -/
def onMouseOut (clientY : Int) (relatedTargetNull : Bool) (w : Widget) : Widget :=
  if !w.armed || !canShow w then w
  else
    let nearTop := decide (clientY ≤ topThresholdPx)
    let leavingDoc := relatedTargetNull
    if nearTop || (leavingDoc && decide (clientY ≤ topThresholdPx * 3)) then
      trigger "exit" false w
    else w

/-- The payload both submission paths start from (lines 846-858 and 1106-1120);
`exited` is the property of the exit path only. -/
def basePayload (stage : Nat) (exited : Bool) (b : Browser) (w : Widget) : JsObject :=
  let prevCount := match w.state with | some st => st.count | none => 0
  let sessionId :=
    match w.state with
    | some st => if st.sessionId ≠ "" then st.sessionId else b.newSessionId
    | none => b.newSessionId
  [("surveyId", JsValue.string "exit-survey-v2.1"),
    ("submissionStage", JsValue.number (stage : Nat)),
    ("trigger", JsValue.string (if w.triggerSource ≠ "" then w.triggerSource else "unknown")),
    ("path", JsValue.string b.path),
    ("timestamp", JsValue.string b.isoNow),
    ("ua", JsValue.string b.userAgent),
    ("resubmission", JsValue.bool (decide (prevCount > 0))),
    ("resubmissionCount", JsValue.number (prevCount : Nat))] ++
  (if exited then [("exited", JsValue.bool true)] else []) ++
  [("userFingerprint", JsValue.string b.fingerprint),
    ("sessionId", JsValue.string sessionId)]

/-- The payload with the answers of the steps up to `stage` merged in (lines 857-860
and 1119-1122). -/
def buildPayload (stage : Nat) (exited : Bool) (b : Browser) (a : Answers) (w : Widget) :
    JsObject :=
  let p1 := (basePayload stage exited b w).assign (collectStep1 a)
  let p2 := if stage ≥ 2 then p1.assign (collectStep2 a) else p1
  if stage ≥ 3 then p2.assign (collectStep3 a) else p2

/-- The state object written after a submission (lines 864-870 and 1125-1129). -/
def nextState (submitted : Bool) (b : Browser) (w : Widget) : StoredState :=
  let prevCount := match w.state with | some st => st.count | none => 0
  let sessionId :=
    match w.state with
    | some st => if st.sessionId ≠ "" then st.sessionId else b.newSessionId
    | none => b.newSessionId
  { count := prevCount + 1, lastTs := b.now, sessionId := sessionId, submitted := submitted }

/-- The function `submitOnExit` (lines 1091-1131). -/
def submitOnExit (b : Browser) (a : Answers) (w : Widget) : Widget :=
  if !w.modal then w
  else
    let step :=
      if w.visibleStep = 1 then 1 else if w.visibleStep = 2 then 2
      else if w.visibleStep = 3 then 3 else 1
    { w with
      sent := w.sent ++ [buildPayload step true b a w]
      state := some (nextState false b w) }

/-- The function `close` (lines 948-955) called with the argument `arg`; its parameter
`wasSubmitted` is `false` when the argument is `undefined`. -/
def close (arg : JsValue) (b : Browser) (a : Answers) (w : Widget) : Widget :=
  let wasSubmitted :=
    match arg with
    | JsValue.undefined => JsValue.bool false
    | v => v
  if !w.modal then w
  else
    let w1 := if !wasSubmitted.truthy then submitOnExit b a w else w
    { w1 with modal := false }

/-- The function `submitPayload` (lines 835-875) up to its `await`: the payload is
passed to `submitSurvey`. -/
def submitPayloadSend (stage : Nat) (b : Browser) (a : Answers) (w : Widget) : Widget :=
  { w with sent := w.sent ++ [buildPayload stage false b a w] }

/-- The function `submitPayload` after its `await`; `prev` is the widget as it was when
the function was called, from which `prev` and `sessionId` were taken. -/
def submitPayloadDone (prev : Widget) (b0 b : Browser) (a : Answers) (w : Widget) : Widget :=
  close (JsValue.bool true) b a
    { w with state := some { nextState true b0 prev with lastTs := b.now } }

/-- What happens on the page, with what the handler reads from the browser. -/
inductive PageEvent where
  /-- A `mouseout` event reaches the document. -/
  | mouseout (clientY : Int) (relatedTargetNull : Bool)
  /-- The fallback timer, when one is pending, fires. -/
  | fallbackTimeout
  /-- The arming timer fires. -/
  | armTimeout
  /-- A click on the feedback button. -/
  | fabClick
  /-- A call `ExitSurvey.open()`. -/
  | apiOpen
  /-- A call `ExitSurvey.resetSession()`. -/
  | resetSession (isMobile : Bool)
  /-- A click on the close button of the modal; `event` is the event object. -/
  | closeButtonClick (event : JsObject) (b : Browser) (a : Answers)
  /-- A click inside the modal; `onBackdrop` tells whether its target is the backdrop. -/
  | modalClick (onBackdrop : Bool) (b : Browser) (a : Answers)
  /-- A key is pressed. -/
  | keydown (key : String) (b : Browser) (a : Answers)
  /-- A click on a navigation button that shows step `n`. -/
  | showStep (n : Nat)
  /-- A click on the submit button of step 3. -/
  | submitClick (b : Browser) (a : Answers)

/-- The listeners as registered (lines 878-882, 956-960, 1023-1089).  Elements of the
modal receive events only while the modal is open.  A click on the submit button is
taken together with the completion of its request, the browser being read again
then. -/
def handle (w : Widget) : PageEvent → Widget
  | PageEvent.mouseout clientY relatedTargetNull =>
    if w.mouseoutListener then onMouseOut clientY relatedTargetNull w else w
  | PageEvent.fallbackTimeout =>
    if w.fallbackTimer then
      let w1 := { w with fallbackTimer := false }
      if canShow w1 then trigger "fallback" false w1 else w1
    else w
  | PageEvent.armTimeout => { w with armed := true }
  | PageEvent.fabClick => trigger "fab" true w
  | PageEvent.apiOpen => trigger "manual" true w
  | PageEvent.resetSession isMobile =>
    let w1 := { w with fired := false, armed := false }
    if !w1.suppressAuto then
      { w1 with
        mouseoutListener := true
        fallbackTimer := w1.fallbackTimer || decide (fallbackDelay isMobile > 0) }
    else w1
  | PageEvent.closeButtonClick event b a =>
    if w.modal then close (JsValue.object event) b a w else w
  | PageEvent.modalClick onBackdrop b a =>
    if w.modal && onBackdrop then close JsValue.undefined b a w else w
  | PageEvent.keydown key b a =>
    if key = "Escape" && w.modal then close JsValue.undefined b a w else w
  | PageEvent.showStep n => if w.modal then { w with visibleStep := n } else w
  | PageEvent.submitClick b a =>
    if w.modal then submitPayloadDone w b b a (submitPayloadSend 3 b a w) else w

/-- A browser for examples. -/
def sampleBrowser : Browser :=
  { now := 1000, isoNow := "2025-10-16T10:00:00.000Z", path := "/", userAgent := "UA",
    fingerprint := "fp", newSessionId := "session_1000_abc" }

/-- Answers for examples: a rating and nothing else. -/
def sampleAnswers : Answers :=
  { selected := JsValue.string "very", label := JsValue.string "Very helpful",
    stars := JsValue.number 5, step1Comments := JsValue.null, intent := JsValue.null,
    audience := JsValue.null, heardWhere := JsValue.null,
    visitingReasonsOther := JsValue.string "", visitingForOther := JsValue.string "",
    heardWhereOther := JsValue.string "", ageGroup := JsValue.null, gender := JsValue.null,
    ethnicity := JsValue.null, barriers := JsValue.null, comments := JsValue.null }

/-- A first visit on a desktop browser, the survey opened with the feedback button. -/
def openedWidget : Widget :=
  handle (loadPage none false 0 0 false) PageEvent.fabClick

/-- Whether the event opens the survey on request: the feedback button and
`ExitSurvey.open()`. -/
def PageEvent.isForced : PageEvent → Bool
  | PageEvent.fabClick => true
  | PageEvent.apiOpen => true
  | _ => false

/-- The page as it is while automatic triggers are suppressed and the survey is
closed. -/
def Suppressed (w : Widget) : Prop :=
  w.suppressAuto = true ∧ w.mouseoutListener = false ∧ w.fallbackTimer = false ∧
    w.modal = false

/-- The event object of a click. -/
def clickEvent : JsObject := [("type", JsValue.string "click")]

/-- A state stored by a submission at time 1000. -/
def recentState : StoredState :=
  { count := 1, lastTs := 1000, sessionId := "session_1000_abc", submitted := true }

/-- How many records in flight or in the queue have a promise number up to `p`: the
record of promise `p`, when it is there, and the records ahead of it. -/
def ahead {α ε : Type} (p : Nat) (s : Server α ε) : Nat :=
  (s.awaiting ++ s.excelWriteQueue).countP fun item => decide (item.promise ≤ p)

/-- The records in flight and in the queue are in the order of their promise numbers,
which are below the counter. -/
def Ordered {α ε : Type} (s : Server α ε) : Prop :=
  ((s.awaiting ++ s.excelWriteQueue).map QueueItem.promise).Pairwise (· < ·) ∧
    ∀ item ∈ s.awaiting ++ s.excelWriteQueue, item.promise < s.promises

/-- Whether the event is the settling of the awaited `saveSurveyToExcel` call. -/
def Event.isSettle {α ε : Type} : Event α ε → Bool
  | Event.settle 0 _ _ => true
  | _ => false

/-- Three submissions in a burst, none of the writes settled yet. -/
def threePending : List (Event Nat String) :=
  [enqueueAt 0 1, enqueueAt 1 2, enqueueAt 2 3]

/-! ## Theorems -/

section Infrastructure

variable {α ε : Type}

theorem runFrom_append (s : Server α ε) (es fs : List (Event α ε)) :
    runFrom s (es ++ fs) = runFrom (runFrom s es) fs := by
  simp [runFrom, List.foldl_append]

theorem run_append (es fs : List (Event α ε)) : run (es ++ fs) = runFrom (run es) fs := by
  simp [run, runFrom_append]

/-- A property kept by every handler run holds after any sequence of events. -/
theorem runFrom_invariant (I : Server α ε → Prop)
    (hstep : ∀ s e, I s → I (step s e)) (s : Server α ε) (h : I s)
    (es : List (Event α ε)) : I (runFrom s es) := by
  induction es generalizing s with
  | nil => simpa [runFrom] using h
  | cons e es ih => simpa [runFrom] using ih (step s e) (hstep s e h)

theorem processLoop_micro (q : List (QueueItem α)) (clk : Clock) (s : Server α ε)
    (hq : s.excelWriteQueue = q) : Relation.ReflTransGen Micro s (processLoop q clk s) := by
  induction q generalizing s clk with
  | nil => exact Relation.ReflTransGen.single (Micro.exit s hq)
  | cons item rest ih =>
    unfold processLoop
    simp only
    split
    · exact Relation.ReflTransGen.head (Micro.timeout s item rest hq) (ih _ _ rfl)
    · exact Relation.ReflTransGen.single (Micro.save s item rest hq)

theorem processQueue_micro (clk : Clock) (s : Server α ε) :
    Relation.ReflTransGen Micro s (processQueue clk s) := by
  unfold processQueue
  split
  · exact Relation.ReflTransGen.refl
  · exact Relation.ReflTransGen.head (Micro.start s) (processLoop_micro _ _ _ rfl)

theorem queueExcelWrite_micro (data : α) (requestId : String) (clk : Clock)
    (s : Server α ε) : Relation.ReflTransGen Micro s (queueExcelWrite data requestId clk s) := by
  unfold queueExcelWrite
  simp only
  split
  · exact Relation.ReflTransGen.single (Micro.rejectFull s)
  · exact Relation.ReflTransGen.head (Micro.push s data requestId clk.now)
      (processQueue_micro _ _)

theorem resumeProcessQueue_micro (i : Nat) (result : Except ε Unit) (clk : Clock)
    (s : Server α ε) : Relation.ReflTransGen Micro s (resumeProcessQueue i result clk s) := by
  unfold resumeProcessQueue
  split
  · exact Relation.ReflTransGen.refl
  · rename_i item hitem
    split
    · exact Relation.ReflTransGen.head (Micro.settleOk s i item clk.now hitem)
        (processLoop_micro _ _ _ rfl)
    · rename_i e
      exact Relation.ReflTransGen.head (Micro.settleErr s i item e hitem)
        (processLoop_micro _ _ _ rfl)

/-- Every handler run is a sequence of atomic actions. -/
theorem step_micro (s : Server α ε) (e : Event α ε) :
    Relation.ReflTransGen Micro s (step s e) := by
  cases e with
  | enqueue data requestId clk => exact queueExcelWrite_micro data requestId clk s
  | settle i result clk => exact resumeProcessQueue_micro i result clk s

/-- A property kept by every atomic action is kept by every sequence of them. -/
theorem micro_star (I : Server α ε → Prop) (hI : ∀ s t, Micro s t → I s → I t)
    {s t : Server α ε} (hm : Relation.ReflTransGen Micro s t) (h : I s) : I t := by
  induction hm with
  | refl => exact h
  | tail _ hbc ih => exact hI _ _ hbc ih

/-- A property kept by every atomic action is kept by every handler run. -/
theorem step_of_micro (I : Server α ε → Prop) (hI : ∀ s t, Micro s t → I s → I t)
    (s : Server α ε) (e : Event α ε) (h : I s) : I (step s e) :=
  micro_star I hI (step_micro s e) h

/-- A property kept by every atomic action holds after any sequence of events. -/
theorem runFrom_of_micro (I : Server α ε → Prop) (hI : ∀ s t, Micro s t → I s → I t)
    (s : Server α ε) (h : I s) (es : List (Event α ε)) : I (runFrom s es) :=
  runFrom_invariant I (step_of_micro I hI) s h es

end Infrastructure

section Fifo

variable {α ε : Type}

theorem filter_ne_of_nodup (A B : List (Nat × α)) (p : Nat) (d : α)
    (h : ((A ++ (p, d) :: B).map Prod.fst).Nodup) :
    (A ++ (p, d) :: B).filter (fun r => decide (r.1 ≠ p)) = A ++ B := by
  simp only [List.map_append, List.map_cons, List.nodup_append, List.nodup_cons] at h
  obtain ⟨_, ⟨hB, _⟩, hdisj⟩ := h
  have hA : ∀ r ∈ A, r.1 ≠ p := by
    intro r hr heq
    exact hdisj (List.mem_map_of_mem Prod.fst hr) (by simp [heq])
  have hB2 : ∀ r ∈ B, r.1 ≠ p := by
    intro r hr heq
    exact hB (by rw [← heq]; exact List.mem_map_of_mem Prod.fst hr)
  rw [List.filter_append, List.filter_cons]
  simp only [ne_eq, not_true_eq_false, decide_False, Bool.false_eq_true, ↓reduceIte]
  rw [List.filter_eq_self.2, List.filter_eq_self.2]
  · intro r hr; simpa using hB2 r hr
  · intro r hr; simpa using hA r hr

theorem fifoInv_micro (s t : Server α ε) (hm : Micro s t) (h : FifoInv s) : FifoInv t := by
  obtain ⟨ho, hf, hfo, hn⟩ := h
  cases hm with
  | rejectFull =>
    refine ⟨?_, ?_, ?_, ?_⟩
    · simpa [accepted, persisted, timedOut, pending, Effect.pushed?, Effect.saved?,
        Effect.timedOut?, queueFullMessage, queueTimeoutMessage] using ho
    · intro r hr
      have := hf r (by simpa [accepted, Effect.pushed?] using hr)
      show r.1 < s.promises + 1
      omega
    · intro p hp
      have := hfo p (by simpa [timedOut, Effect.timedOut?, queueFullMessage,
        queueTimeoutMessage] using hp)
      show p < s.promises + 1
      omega
    · simpa [accepted, Effect.pushed?] using hn
  | push data requestId currentTime =>
    have hnew : s.promises ∉ timedOut s.trace := fun hmem => Nat.lt_irrefl _ (hfo _ hmem)
    refine ⟨?_, ?_, ?_, ?_⟩
    · have hacc : accepted (s.trace ++ [Effect.push s.promises data currentTime]) =
          accepted s.trace ++ [(s.promises, data)] := by
        simp [accepted, Effect.pushed?]
      have hper : persisted (s.trace ++ [Effect.push s.promises data currentTime]) =
          persisted s.trace := by
        simp [persisted, Effect.saved?]
      have hto : timedOut (s.trace ++ [Effect.push s.promises data currentTime]) =
          timedOut s.trace := by
        simp [timedOut, Effect.timedOut?]
      show (accepted (s.trace ++ _)).filter _ = persisted (s.trace ++ _) ++ _
      rw [hacc, hper, hto, List.filter_append, ho]
      simp [pending, hnew]
    · intro r hr
      simp only [accepted, List.filterMap_append, List.mem_append] at hr
      show r.1 < s.promises + 1
      rcases hr with hr | hr
      · have := hf r hr
        omega
      · simp [Effect.pushed?] at hr
        simp [hr]
    · intro p hp
      have := hfo p (by simpa [timedOut, Effect.timedOut?] using hp)
      show p < s.promises + 1
      omega
    · simp only [accepted, List.filterMap_append, List.map_append] at hn ⊢
      rw [List.nodup_append]
      refine ⟨hn, by simp [Effect.pushed?], ?_⟩
      intro a ha hb
      simp [Effect.pushed?] at hb
      obtain ⟨r, hr, rfl⟩ := List.mem_map.1 ha
      have := hf r hr
      omega
  | start => exact ⟨ho, hf, hfo, hn⟩
  | exit hq => exact ⟨ho, hf, hfo, hn⟩
  | timeout item rest hq =>
    have hpend : pending s = (item.promise, item.data) :: pending { s with excelWriteQueue := rest } := by
      simp [pending, hq]
    rw [hpend] at ho
    have hnd : (((accepted s.trace).filter
        (fun r => decide (r.1 ∉ timedOut s.trace))).map Prod.fst).Nodup :=
      List.Nodup.sublist (List.Sublist.map _ (List.filter_sublist _)) hn
    have hmem : (item.promise, item.data) ∈ accepted s.trace := by
      have : (item.promise, item.data) ∈ (accepted s.trace).filter
          (fun r => decide (r.1 ∉ timedOut s.trace)) := by
        rw [ho]; simp
      exact List.mem_of_mem_filter this
    refine ⟨?_, ?_, ?_, ?_⟩
    · have hacc : accepted (s.trace ++
          [Effect.reject item.promise (JsError.newError queueTimeoutMessage)]) =
          accepted s.trace := by
        simp [accepted, Effect.pushed?]
      have hper : persisted (s.trace ++
          [Effect.reject item.promise (JsError.newError queueTimeoutMessage)]) =
          persisted s.trace := by
        simp [persisted, Effect.saved?]
      have hto : timedOut (s.trace ++
          [Effect.reject item.promise (JsError.newError queueTimeoutMessage)]) =
          timedOut s.trace ++ [item.promise] := by
        simp [timedOut, Effect.timedOut?]
      show (accepted (s.trace ++ _)).filter _ = persisted (s.trace ++ _) ++ _
      rw [hacc, hper, hto]
      have hsplit : (accepted s.trace).filter
          (fun r => decide (r.1 ∉ timedOut s.trace ++ [item.promise])) =
          ((accepted s.trace).filter (fun r => decide (r.1 ∉ timedOut s.trace))).filter
            (fun r => decide (r.1 ≠ item.promise)) := by
        rw [List.filter_filter]
        apply List.filter_congr
        intro r _
        simp [not_or, and_comm]
      rw [hsplit, ho]
      rw [ho] at hnd
      exact filter_ne_of_nodup _ _ _ _ hnd
    · intro r hr
      exact hf r (by simpa [accepted, Effect.pushed?] using hr)
    · intro p hp
      simp only [timedOut, List.filterMap_append, List.mem_append] at hp
      rcases hp with hp | hp
      · exact hfo p hp
      · simp [Effect.timedOut?] at hp
        rw [hp]
        exact hf _ hmem
    · simpa [accepted, Effect.pushed?] using hn
  | save item rest hq =>
    refine ⟨?_, ?_, ?_, ?_⟩
    · simp only [accepted, persisted, timedOut, pending] at ho ⊢
      simp [Effect.pushed?, Effect.saved?, Effect.timedOut?]
      simpa [hq] using ho
    · intro r hr
      exact hf r (by simpa [accepted, Effect.pushed?] using hr)
    · intro p hp
      exact hfo p (by simpa [timedOut, Effect.timedOut?] using hp)
    · simpa [accepted, Effect.pushed?] using hn
  | settleOk i item now hi =>
    refine ⟨?_, ?_, ?_, ?_⟩
    · simpa [accepted, persisted, timedOut, pending, Effect.pushed?, Effect.saved?,
        Effect.timedOut?] using ho
    · intro r hr
      exact hf r (by simpa [accepted, Effect.pushed?] using hr)
    · intro p hp
      exact hfo p (by simpa [timedOut, Effect.timedOut?] using hp)
    · simpa [accepted, Effect.pushed?] using hn
  | settleErr i item e hi =>
    refine ⟨?_, ?_, ?_, ?_⟩
    · simpa [accepted, persisted, timedOut, pending, Effect.pushed?, Effect.saved?,
        Effect.timedOut?] using ho
    · intro r hr
      exact hf r (by simpa [accepted, Effect.pushed?] using hr)
    · intro p hp
      exact hfo p (by simpa [timedOut, Effect.timedOut?] using hp)
    · simpa [accepted, Effect.pushed?] using hn

theorem fifoInv_init : FifoInv (Server.init : Server α ε) := by
  refine ⟨?_, ?_, ?_, ?_⟩ <;> simp [Server.init, accepted, persisted, timedOut, pending]

theorem fifoInv_run (es : List (Event α ε)) : FifoInv (run es) :=
  runFrom_of_micro FifoInv fifoInv_micro _ fifoInv_init es

/-- C1 (FIFO order).  After any sequence of events the accepted records that did not
time out are, in enqueue order, exactly the records handed to `saveSurveyToExcel`
(in call order) followed by the records still pending in the queue; when no record
timed out, the payloads handed to `saveSurveyToExcel` followed by the pending payloads
are the accepted payloads in enqueue order, so once the queue is drained the two
sequences are equal. -/
theorem fifo_order (es : List (Event α ε)) :
    (accepted (run es).trace).filter (fun r => decide (r.1 ∉ timedOut (run es).trace)) =
        persisted (run es).trace ++ pending (run es) ∧
      (timedOut (run es).trace = [] →
        (accepted (run es).trace).map Prod.snd =
          (persisted (run es).trace).map Prod.snd ++
            (run es).excelWriteQueue.map QueueItem.data) ∧
      (timedOut (run es).trace = [] → (run es).excelWriteQueue = [] →
        (persisted (run es).trace).map Prod.snd = (accepted (run es).trace).map Prod.snd) := by
  have h := (fifoInv_run es).order
  have h2 : timedOut (run es).trace = [] →
      (accepted (run es).trace).map Prod.snd =
        (persisted (run es).trace).map Prod.snd ++
          (run es).excelWriteQueue.map QueueItem.data := by
    intro hto
    rw [hto] at h
    simp only [List.not_mem_nil, not_false_eq_true, decide_True, List.filter_true] at h
    rw [h]
    simp [pending, Function.comp_def]
  refine ⟨h, h2, ?_⟩
  intro hto hq
  rw [h2 hto, hq]
  simp

/-- Witness of `fifo_order`: in a burst of three submissions none times out, and
the payloads reach `saveSurveyToExcel` in the order 1, 2, 3. -/
theorem fifo_order_witness :
    timedOut (run burstOfThree).trace = [] ∧ (run burstOfThree).excelWriteQueue = [] ∧
      (accepted (run burstOfThree).trace).map Prod.snd = [1, 2, 3] ∧
      (persisted (run burstOfThree).trace).map Prod.snd = [1, 2, 3] :=
  ⟨by decide, by decide, by decide,
    ((fifo_order burstOfThree).2.2 (by decide) (by decide)).trans (by decide)⟩

end Fifo

section MutualExclusion

variable {α ε : Type}

theorem processLoop_quiescent (q : List (QueueItem α)) (clk : Clock) (s : Server α ε)
    (hq : s.excelWriteQueue = q) (ha : s.awaiting = []) (hf : s.isProcessingQueue = true) :
    Quiescent (processLoop q clk s) := by
  induction q generalizing s clk with
  | nil => exact Or.inl ⟨rfl, hq, ha⟩
  | cons item rest ih =>
    unfold processLoop
    simp only
    split
    · exact ih _ _ rfl ha hf
    · exact Or.inr ⟨hf, by simp [ha]⟩

theorem step_quiescent (s : Server α ε) (e : Event α ε) (h : Quiescent s) :
    Quiescent (step s e) := by
  cases e with
  | enqueue data requestId clk =>
    simp only [step, queueExcelWrite]
    split
    · exact h
    · rcases h with ⟨hf, hq, ha⟩ | ⟨hf, ha⟩
      · simp only [processQueue, hf, hq]
        simp only [List.nil_append, List.length_singleton, Bool.false_or, beq_iff_eq, one_ne_zero, ↓reduceIte]
        exact processLoop_quiescent _ _ _ rfl ha rfl
      · simp only [processQueue, hf, Bool.true_or, ↓reduceIte]
        exact Or.inr ⟨rfl, ha⟩
  | settle i result clk =>
    simp only [step, resumeProcessQueue]
    split
    · exact h
    · rename_i item hitem
      have hlen : (s.awaiting.eraseIdx i) = [] := by
        rcases h with ⟨_, _, ha⟩ | ⟨_, ha⟩
        · simp [ha] at hitem
        · match hs : s.awaiting, ha with
          | [x], _ =>
            rw [hs] at hitem
            cases i with
            | zero => rfl
            | succ n => simp at hitem
      have hflag : s.isProcessingQueue = true := by
        rcases h with ⟨_, _, ha⟩ | ⟨hf, _⟩
        · simp [ha] at hitem
        · exact hf
      split
      · exact processLoop_quiescent _ _ _ rfl hlen hflag
      · exact processLoop_quiescent _ _ _ rfl hlen hflag

theorem quiescent_run (es : List (Event α ε)) : Quiescent (run es) :=
  runFrom_invariant Quiescent step_quiescent _ (Or.inl ⟨rfl, rfl, rfl⟩) es

theorem calls_micro (s t : Server α ε) (hm : Micro s t)
    (h : (persisted s.trace).length =
      s.trace.countP Effect.isReturned + s.trace.countP Effect.isThrew + s.awaiting.length) :
    (persisted t.trace).length =
      t.trace.countP Effect.isReturned + t.trace.countP Effect.isThrew + t.awaiting.length := by
  cases hm with
  | rejectFull =>
    simpa [persisted, Effect.saved?, Effect.isReturned, Effect.isThrew, List.countP_append]
      using h
  | push data requestId currentTime =>
    simpa [persisted, Effect.saved?, Effect.isReturned, Effect.isThrew, List.countP_append]
      using h
  | start => exact h
  | exit hq => exact h
  | timeout item rest hq =>
    simpa [persisted, Effect.saved?, Effect.isReturned, Effect.isThrew, List.countP_append]
      using h
  | save item rest hq =>
    simp only [persisted] at h
    simp [persisted, Effect.saved?, Effect.isReturned, Effect.isThrew, List.countP_append, h]
    omega
  | settleOk i item now hi =>
    obtain ⟨hlt, _⟩ := List.getElem?_eq_some.1 hi
    simp only [persisted] at h
    simp [persisted, Effect.saved?, Effect.isReturned, Effect.isThrew, List.countP_append, h,
      List.length_eraseIdx, hlt]
    omega
  | settleErr i item e hi =>
    obtain ⟨hlt, _⟩ := List.getElem?_eq_some.1 hi
    simp only [persisted] at h
    simp [persisted, Effect.saved?, Effect.isReturned, Effect.isThrew, List.countP_append, h,
      List.length_eraseIdx, hlt]
    omega

/-- C2 (mutual exclusion).  After any interleaving of `queueExcelWrite` calls and
settlings of `saveSurveyToExcel`, at most one activation of `processQueue` awaits a
`saveSurveyToExcel` call, and the calls started so far are the calls settled so far
plus the awaited ones: at most one call is in flight. -/
theorem at_most_one_in_flight (es : List (Event α ε)) :
    (run es).awaiting.length ≤ 1 ∧
      (persisted (run es).trace).length =
        (run es).trace.countP Effect.isReturned + (run es).trace.countP Effect.isThrew +
          (run es).awaiting.length ∧
      (persisted (run es).trace).length ≤
        (run es).trace.countP Effect.isReturned + (run es).trace.countP Effect.isThrew + 1 := by
  have h1 : (run es).awaiting.length ≤ 1 := by
    rcases quiescent_run es with ⟨_, _, ha⟩ | ⟨_, ha⟩
    · simp [ha]
    · omega
  have h2 := runFrom_of_micro
    (fun s : Server α ε => (persisted s.trace).length =
      s.trace.countP Effect.isReturned + s.trace.countP Effect.isThrew + s.awaiting.length)
    calls_micro Server.init (by simp [Server.init, persisted]) es
  exact ⟨h1, h2, by have := h2; simp only [run] at h1 ⊢; omega⟩

end MutualExclusion

section Capacity
variable {α ε : Type}

theorem micro_trace (s t : Server α ε) (hm : Micro s t) : ∃ u, t.trace = s.trace ++ u := by
  cases hm <;> first | exact ⟨_, rfl⟩ | exact ⟨[], (List.append_nil _).symm⟩

/-- The trace only grows. -/
theorem star_trace {s t : Server α ε} (hm : Relation.ReflTransGen Micro s t) :
    ∃ u, t.trace = s.trace ++ u := by
  induction hm with
  | refl => exact ⟨[], by simp⟩
  | tail _ hbc ih =>
    obtain ⟨u, hu⟩ := ih
    obtain ⟨v, hv⟩ := micro_trace _ _ hbc
    exact ⟨u ++ v, by rw [hv, hu, List.append_assoc]⟩

/-- What a rejected call of `queueExcelWrite` does. -/
theorem queueExcelWrite_full (data : α) (requestId : String) (clk : Clock) (s : Server α ε)
    (h : 100 < s.excelWriteQueue.length) :
    queueExcelWrite data requestId clk s =
      { s with
        promises := s.promises + 1
        trace := s.trace ++ [Effect.reject s.promises (JsError.newError queueFullMessage)] } := by
  simp [queueExcelWrite, h]

/-- What an accepted call of `queueExcelWrite` does. -/
theorem queueExcelWrite_accept (data : α) (requestId : String) (clk : Clock) (s : Server α ε)
    (h : s.excelWriteQueue.length ≤ 100) :
    queueExcelWrite data requestId clk s =
      processQueue clk.next
        { s with
          promises := s.promises + 1
          excelWriteQueue := s.excelWriteQueue ++
            [{ data := data, promise := s.promises, timestamp := clk.now,
               requestId := requestId }]
          trace := s.trace ++ [Effect.push s.promises data clk.now] } := by
  simp [queueExcelWrite, Nat.not_lt.2 h]

/-- C3 (capacity, as the code has it).  `queueExcelWrite` rejects with the queue-full
error exactly when more than 100 records are pending, and it pushes the record exactly
when at most 100 are pending. -/
theorem queueExcelWrite_rejects_iff (data : α) (requestId : String) (clk : Clock)
    (s : Server α ε) :
    (100 < s.excelWriteQueue.length ↔
        (queueExcelWrite data requestId clk s).trace =
          s.trace ++ [Effect.reject s.promises (JsError.newError queueFullMessage)]) ∧
      (s.excelWriteQueue.length ≤ 100 ↔
        ∃ u, (queueExcelWrite data requestId clk s).trace =
          s.trace ++ Effect.push s.promises data clk.now :: u) := by
  by_cases h : 100 < s.excelWriteQueue.length
  · have hrej := queueExcelWrite_full data requestId clk s h
    refine ⟨⟨fun _ => by rw [hrej], fun _ => h⟩, ⟨fun h2 => absurd h (Nat.not_lt.2 h2), ?_⟩⟩
    rintro ⟨u, hu⟩
    rw [hrej] at hu
    simp at hu
  · have hle := Nat.not_lt.1 h
    have hacc := queueExcelWrite_accept data requestId clk s hle
    obtain ⟨u, hu⟩ := star_trace (processQueue_micro clk.next
      ({ s with
          promises := s.promises + 1
          excelWriteQueue := s.excelWriteQueue ++
            [{ data := data, promise := s.promises, timestamp := clk.now,
               requestId := requestId }]
          trace := s.trace ++ [Effect.push s.promises data clk.now] } : Server α ε))
    rw [← hacc] at hu
    simp only [List.append_assoc, List.singleton_append] at hu
    refine ⟨⟨fun h2 => absurd h2 h, ?_⟩, ⟨fun _ => ⟨u, hu⟩, fun _ => hle⟩⟩
    intro h2
    rw [hu] at h2
    simp at h2

end Capacity

set_option maxRecDepth 100000 in
/-- C3, counterexample to the claim as stated: after a burst of 101 submissions 100
records are pending (the first is in flight), and the next `queueExcelWrite` is not
rejected: the record is pushed and 101 are pending. -/
theorem queueExcelWrite_accepts_at_100 :
    (run (burst 101)).excelWriteQueue.length = 100 ∧
      (queueExcelWrite 101 "r" (Clock.const 0) (run (burst 101))).trace ≠
        (run (burst 101)).trace ++
          [Effect.reject (run (burst 101)).promises (JsError.newError queueFullMessage)] ∧
      (queueExcelWrite 101 "r" (Clock.const 0) (run (burst 101))).excelWriteQueue.length =
        101 := by
  refine ⟨by decide, ?_, by decide⟩
  decide

section QueueFull
variable {α ε : Type}

theorem absent_micro (p : Nat) (s t : Server α ε) (hm : Micro s t) (h : Absent p s) :
    Absent p t := by
  obtain ⟨hp, hq, ht⟩ := h
  cases hm with
  | rejectFull =>
    exact ⟨Nat.lt_succ_of_lt hp, hq, fun d hd => ht d (by simpa using hd)⟩
  | push data requestId currentTime =>
    refine ⟨Nat.lt_succ_of_lt hp, ?_, fun d hd => ht d (by simpa using hd)⟩
    intro item hi
    simp only [List.mem_append, List.mem_singleton] at hi
    rcases hi with hi | hi
    · exact hq item hi
    · rw [hi]
      exact Nat.ne_of_gt hp
  | start => exact ⟨hp, hq, ht⟩
  | exit hq2 => exact ⟨hp, hq, ht⟩
  | timeout item rest hq2 =>
    refine ⟨hp, fun i hi => hq i (by rw [hq2]; exact List.mem_cons_of_mem _ hi),
      fun d hd => ht d (by simpa using hd)⟩
  | save item rest hq2 =>
    refine ⟨hp, fun i hi => hq i (by rw [hq2]; exact List.mem_cons_of_mem _ hi), ?_⟩
    intro d hd
    simp only [List.mem_append, List.mem_singleton, Effect.saveSurveyToExcel.injEq] at hd
    rcases hd with hd | hd
    · exact ht d hd
    · exact hq item (by rw [hq2]; exact List.mem_cons_self _ _) hd.1.symm
  | settleOk i item now hi =>
    exact ⟨hp, hq, fun d hd => ht d (by simpa using hd)⟩
  | settleErr i item e hi =>
    exact ⟨hp, hq, fun d hd => ht d (by simpa using hd)⟩

theorem mem_persisted {t : List (Effect α ε)} {p : Nat} {d : α}
    (h : Effect.saveSurveyToExcel p d ∈ t) : (p, d) ∈ persisted t := by
  simp only [persisted, List.mem_filterMap]
  exact ⟨_, h, rfl⟩

/-- Promise numbers in the queue and in the calls made are below the counter. -/
theorem fresh_of_fifoInv {s : Server α ε} (h : FifoInv s) :
    (∀ item ∈ s.excelWriteQueue, item.promise < s.promises) ∧
      ∀ p d, Effect.saveSurveyToExcel p d ∈ s.trace → p < s.promises := by
  have key : ∀ r ∈ persisted s.trace ++ pending s, r.1 < s.promises := by
    intro r hr
    rw [← h.order] at hr
    exact h.fresh r (List.mem_of_mem_filter hr)
  constructor
  · intro item hi
    exact key (item.promise, item.data)
      (List.mem_append_right _ (List.mem_map.2 ⟨item, hi, rfl⟩))
  · intro p d hd
    exact key (p, d) (List.mem_append_left _ (mem_persisted hd))

/-- C4 (queue-full rejection changes nothing).  When `queueExcelWrite` is called in a
reachable state with more than 100 records pending, the queue, the processing flag,
the statistics and the awaited call are as before, the only effect is the call of
`reject` with the queue-full error, and whatever happens afterwards the rejected
record is never in the queue and never handed to `saveSurveyToExcel`. -/
theorem queueExcelWrite_full_frame (es : List (Event α ε)) (data : α) (requestId : String)
    (clk : Clock) (h : 100 < (run es).excelWriteQueue.length) :
    (queueExcelWrite data requestId clk (run es)).excelWriteQueue = (run es).excelWriteQueue ∧
      (queueExcelWrite data requestId clk (run es)).isProcessingQueue =
        (run es).isProcessingQueue ∧
      (queueExcelWrite data requestId clk (run es)).queueStats = (run es).queueStats ∧
      (queueExcelWrite data requestId clk (run es)).awaiting = (run es).awaiting ∧
      (queueExcelWrite data requestId clk (run es)).trace =
        (run es).trace ++
          [Effect.reject (run es).promises (JsError.newError queueFullMessage)] ∧
      ∀ fs : List (Event α ε),
        (∀ item ∈ (runFrom (queueExcelWrite data requestId clk (run es)) fs).excelWriteQueue,
          item.promise ≠ (run es).promises) ∧
        ∀ d, Effect.saveSurveyToExcel (run es).promises d ∉
          (runFrom (queueExcelWrite data requestId clk (run es)) fs).trace := by
  rw [queueExcelWrite_full data requestId clk (run es) h]
  refine ⟨rfl, rfl, rfl, rfl, rfl, ?_⟩
  intro fs
  obtain ⟨hq, ht⟩ := fresh_of_fifoInv (fifoInv_run es)
  have h0 : Absent (run es).promises
      ({ run es with
        promises := (run es).promises + 1
        trace := (run es).trace ++
          [Effect.reject (run es).promises (JsError.newError queueFullMessage)] } :
        Server α ε) := by
    refine ⟨Nat.lt_succ_self _, fun item hi => Nat.ne_of_lt (hq item hi), ?_⟩
    intro d hd
    simp only [List.mem_append, List.mem_singleton] at hd
    rcases hd with hd | hd
    · exact Nat.lt_irrefl _ (ht _ d hd)
    · cases hd
  have := runFrom_of_micro (Absent (run es).promises) (absent_micro _) _ h0 fs
  exact ⟨this.2.1, this.2.2⟩

end QueueFull

set_option maxRecDepth 100000 in
/-- Witness of `queueExcelWrite_full_frame`: after a burst of 102 submissions 101
records are pending and the next call is rejected. -/
theorem queueExcelWrite_full_frame_witness :
    100 < (run (burst 102)).excelWriteQueue.length ∧
      (queueExcelWrite 7 "r" (Clock.const 0) (run (burst 102))).excelWriteQueue =
        (run (burst 102)).excelWriteQueue ∧
      (queueExcelWrite 7 "r" (Clock.const 0) (run (burst 102))).queueStats =
        (run (burst 102)).queueStats :=
  have h := queueExcelWrite_full_frame (burst 102) 7 "r" (Clock.const 0) (by decide)
  ⟨by decide, h.1, h.2.2.1⟩

section Timeout
variable {α ε : Type}

theorem processLoop_cons_timeout (item : QueueItem α) (rest : List (QueueItem α))
    (clk : Clock) (s : Server α ε) (h : (clk.now : Int) - (item.timestamp : Int) > 60000) :
    processLoop (item :: rest) clk s =
      processLoop rest clk.next
        { s with
          excelWriteQueue := rest
          trace := s.trace ++ [Effect.reject item.promise (JsError.newError queueTimeoutMessage)]
          queueStats := { s.queueStats with totalErrors := s.queueStats.totalErrors + 1 } } := by
  rw [processLoop]
  simp only [h, ↓reduceIte]

theorem processLoop_cons_save (item : QueueItem α) (rest : List (QueueItem α))
    (clk : Clock) (s : Server α ε) (h : ¬ (clk.now : Int) - (item.timestamp : Int) > 60000) :
    processLoop (item :: rest) clk s =
      { s with
        excelWriteQueue := rest
        trace := s.trace ++ [Effect.saveSurveyToExcel item.promise item.data]
        awaiting := s.awaiting ++ [item] } := by
  rw [processLoop]
  simp only [h, ↓reduceIte]

/-- C5 (timeout discard).  When the loop pops a record whose wait exceeds 60000 ms, it
is back at the loop head on the rest of the queue in a state that differs from the
one before only by the popped record, the call of `reject` with the queue-timeout
error and `totalErrors` increased by one: no `saveSurveyToExcel` call is made for the
record, `totalProcessed` and `lastProcessedAt` are unchanged; and when the next pending
record has not timed out it is the one handed to `saveSurveyToExcel`. -/
theorem timeout_discards (item : QueueItem α) (rest : List (QueueItem α)) (clk : Clock)
    (s : Server α ε) (h : (clk.now : Int) - (item.timestamp : Int) > 60000) :
    (∃ s1 : Server α ε,
      processLoop (item :: rest) clk s = processLoop rest clk.next s1 ∧
      s1.excelWriteQueue = rest ∧
      s1.trace = s.trace ++ [Effect.reject item.promise (JsError.newError queueTimeoutMessage)] ∧
      s1.queueStats.totalErrors = s.queueStats.totalErrors + 1 ∧
      s1.queueStats.totalProcessed = s.queueStats.totalProcessed ∧
      s1.queueStats.lastProcessedAt = s.queueStats.lastProcessedAt ∧
      s1.queueStats.maxQueueSize = s.queueStats.maxQueueSize ∧
      s1.awaiting = s.awaiting ∧ s1.isProcessingQueue = s.isProcessingQueue ∧
      s1.promises = s.promises) ∧
    (∀ d, Effect.saveSurveyToExcel item.promise d ∈ (processLoop (item :: rest) clk s).trace →
      Effect.saveSurveyToExcel item.promise d ∈ s.trace ∨
        ∃ other ∈ rest, other.promise = item.promise) ∧
    (∀ (next : QueueItem α) (rest1 : List (QueueItem α)), rest = next :: rest1 →
      ¬ (clk.next.now : Int) - (next.timestamp : Int) > 60000 →
      (processLoop (item :: rest) clk s).trace =
        s.trace ++ [Effect.reject item.promise (JsError.newError queueTimeoutMessage),
          Effect.saveSurveyToExcel next.promise next.data] ∧
      (processLoop (item :: rest) clk s).awaiting = s.awaiting ++ [next] ∧
      (processLoop (item :: rest) clk s).queueStats =
        { s.queueStats with totalErrors := s.queueStats.totalErrors + 1 }) := by
  rw [processLoop_cons_timeout item rest clk s h]
  refine ⟨⟨_, rfl, rfl, rfl, rfl, rfl, rfl, rfl, rfl, rfl, rfl⟩, ?_, ?_⟩
  · intro d hd
    by_contra hcon
    rw [not_or] at hcon
    obtain ⟨h1, h2⟩ := hcon
    have hab : ∀ (q : List (QueueItem α)) (c : Clock) (t : Server α ε),
        (∀ other ∈ q, other.promise ≠ item.promise) →
        Effect.saveSurveyToExcel item.promise d ∉ t.trace →
        Effect.saveSurveyToExcel item.promise d ∉ (processLoop q c t).trace := by
      intro q
      induction q with
      | nil => intro c t _ ht; simpa [processLoop] using ht
      | cons x xs ih =>
        intro c t hq ht
        rw [processLoop]
        simp only
        split
        · apply ih
          · exact fun o ho => hq o (List.mem_cons_of_mem _ ho)
          · simpa using ht
        · simp only [List.mem_append, List.mem_singleton, Effect.saveSurveyToExcel.injEq, not_or]
          exact ⟨ht, fun hx => hq x (List.mem_cons_self _ _) hx.1.symm⟩
    refine hab rest clk.next _ (fun o ho hp => h2 ⟨o, ho, hp⟩) ?_ hd
    simpa using h1
  · intro next rest1 hrest hnext
    subst hrest
    rw [processLoop_cons_save _ _ _ _ hnext]
    simp

end Timeout

/-- Witness of `timeout_discards`: a record enqueued at time 0 and popped at time
61000 is rejected, and the record behind it, enqueued at 2000, is saved. -/
theorem timeout_discards_witness :
    ((Clock.const 61000).now : Int) - ((sampleItem 1 2 0).timestamp : Int) > 60000 ∧
      (processLoop [sampleItem 1 2 0, sampleItem 2 3 2000] (Clock.const 61000)
        (Server.init : Server Nat String)).trace =
        [Effect.reject 1 (JsError.newError queueTimeoutMessage),
          Effect.saveSurveyToExcel 2 3] :=
  ⟨by decide,
    ((timeout_discards (sampleItem 1 2 0) [sampleItem 2 3 2000] (Clock.const 61000)
      (Server.init : Server Nat String) (by decide)).2.2 (sampleItem 2 3 2000) [] rfl
        (by decide)).1⟩

section WaitTime
variable {α ε : Type}

theorem resumeProcessQueue_trace (x : QueueItem α) (result : Except ε Unit) (clk : Clock)
    (s : Server α ε) (ha : s.awaiting = [x]) :
    resumeProcessQueue 0 result clk s =
      processLoop s.excelWriteQueue (resumeClock result clk)
        { s with
          awaiting := []
          trace := s.trace ++ settleEffects x.promise result
          queueStats :=
            match result with
            | Except.ok _ =>
              { s.queueStats with
                totalProcessed := s.queueStats.totalProcessed + 1
                lastProcessedAt := some clk.now }
            | Except.error _ =>
              { s.queueStats with totalErrors := s.queueStats.totalErrors + 1 } } := by
  unfold resumeProcessQueue
  cases result <;> simp [ha, resumeClock, settleEffects]

/-- C6 (wait time).  The record at the head of the queue is rejected with the
queue-timeout error if and only if the clock reading at the pop minus the record's
timestamp is strictly greater than 60000, and handed to `saveSurveyToExcel` if and only
if it is at most 60000; the timestamp is the clock reading at the `queueExcelWrite`
call: a record enqueued at reading `c0.now` behind a write in flight and popped at
reading `t1` when that write settles is rejected exactly when `t1 - c0.now > 60000`,
however long the drain has been running. -/
theorem wait_time_threshold (item : QueueItem α) (rest : List (QueueItem α)) (clk : Clock)
    (s : Server α ε) :
    ((∃ u, (processLoop (item :: rest) clk s).trace =
        s.trace ++ Effect.reject item.promise (JsError.newError queueTimeoutMessage) :: u) ↔
      (clk.now : Int) - (item.timestamp : Int) > 60000) ∧
    ((processLoop (item :: rest) clk s).trace =
        s.trace ++ [Effect.saveSurveyToExcel item.promise item.data] ↔
      (clk.now : Int) - (item.timestamp : Int) ≤ 60000) ∧
    ((clk.now : Int) - (item.timestamp : Int) = 60000 →
      (processLoop (item :: rest) clk s).awaiting = s.awaiting ++ [item]) ∧
    (∀ (x : QueueItem α) (data : α) (requestId : String) (c0 c1 : Clock)
      (result : Except ε Unit),
      s.isProcessingQueue = true → s.awaiting = [x] → s.excelWriteQueue = [] →
      (step (step s (Event.enqueue data requestId c0)) (Event.settle 0 result c1)).trace =
        s.trace ++ Effect.push s.promises data c0.now :: settleEffects x.promise result ++
          [if ((resumeClock result c1).now : Int) - (c0.now : Int) > 60000 then
            Effect.reject s.promises (JsError.newError queueTimeoutMessage)
          else Effect.saveSurveyToExcel s.promises data]) := by
  refine ⟨?_, ?_, ?_, ?_⟩
  · by_cases h : (clk.now : Int) - (item.timestamp : Int) > 60000
    · rw [processLoop_cons_timeout item rest clk s h]
      obtain ⟨u, hu⟩ := star_trace (processLoop_micro rest clk.next
        ({ s with
          excelWriteQueue := rest
          trace := s.trace ++ [Effect.reject item.promise (JsError.newError queueTimeoutMessage)]
          queueStats := { s.queueStats with totalErrors := s.queueStats.totalErrors + 1 } } :
          Server α ε) rfl)
      exact ⟨fun _ => h, fun _ => ⟨u, by rw [hu]; simp⟩⟩
    · rw [processLoop_cons_save item rest clk s h]
      refine ⟨?_, fun h2 => absurd h2 h⟩
      rintro ⟨u, hu⟩
      simp at hu
  · by_cases h : (clk.now : Int) - (item.timestamp : Int) > 60000
    · rw [processLoop_cons_timeout item rest clk s h]
      obtain ⟨u, hu⟩ := star_trace (processLoop_micro rest clk.next
        ({ s with
          excelWriteQueue := rest
          trace := s.trace ++ [Effect.reject item.promise (JsError.newError queueTimeoutMessage)]
          queueStats := { s.queueStats with totalErrors := s.queueStats.totalErrors + 1 } } :
          Server α ε) rfl)
      refine ⟨?_, fun h2 => absurd h (not_lt.2 h2)⟩
      intro h2
      rw [hu] at h2
      simp at h2
    · rw [processLoop_cons_save item rest clk s h]
      exact ⟨fun _ => not_lt.1 h, fun _ => rfl⟩
  · intro h
    rw [processLoop_cons_save item rest clk s (by omega)]
  · intro x data requestId c0 c1 result hf ha hq
    have h1 : step s (Event.enqueue data requestId c0) =
        { s with
          promises := s.promises + 1
          excelWriteQueue :=
            [{ data := data, promise := s.promises, timestamp := c0.now,
               requestId := requestId }]
          trace := s.trace ++ [Effect.push s.promises data c0.now] } := by
      simp [step, queueExcelWrite, processQueue, hq, hf]
    rw [h1]
    simp only [step]
    rw [resumeProcessQueue_trace x result c1 _ (by exact ha)]
    simp only
    by_cases h : ((resumeClock result c1).now : Int) - (c0.now : Int) > 60000
    · rw [processLoop_cons_timeout _ _ _ _ h]
      simp [processLoop, h]
    · rw [processLoop_cons_save _ _ _ _ h]
      simp [h]

end WaitTime

/-- Witness of `wait_time_threshold`: behind a write in flight, a record enqueued at
time 5000 and popped at time 65000, having waited exactly 60000 ms, is handed to
`saveSurveyToExcel`. -/
theorem wait_time_threshold_witness :
    (((Clock.const 65000).now : Int) - ((sampleItem 1 2 5000).timestamp : Int) = 60000 ∧
      (processLoop [sampleItem 1 2 5000] (Clock.const 65000) busyServer).awaiting =
        busyServer.awaiting ++ [sampleItem 1 2 5000]) ∧
    (busyServer.isProcessingQueue = true ∧ busyServer.awaiting = [sampleItem 0 1 0] ∧
      busyServer.excelWriteQueue = [] ∧
      (step (step busyServer (enqueueAt 5000 2)) (failAt 65000)).trace =
        busyServer.trace ++ Effect.push 1 2 5000 ::
          [Effect.threw 0 "boom", Effect.reject 0 (JsError.thrown "boom"),
            Effect.saveSurveyToExcel 1 2]) :=
  have h := wait_time_threshold (sampleItem 1 2 5000) [] (Clock.const 65000) busyServer
  ⟨⟨by decide, h.2.2.1 (by decide)⟩, by decide, by decide, by decide,
    (h.2.2.2 (sampleItem 0 1 0) 2 "r" (Clock.const 5000) (Clock.const 65000)
      (Except.error "boom") (by decide) (by decide) (by decide)).trans (by decide)⟩

section Stats
variable {α ε : Type}

theorem statsInv_micro (s t : Server α ε) (hm : Micro s t) (h : StatsInv s) : StatsInv t := by
  obtain ⟨h1, h2⟩ := h
  simp only [timedOut] at h2
  cases hm <;>
    simp [StatsInv, timedOut, Effect.timedOut?, Effect.isReturned, Effect.isThrew,
      List.countP_append, queueFullMessage, queueTimeoutMessage, h1, h2] <;> omega

theorem statsInv_run (es : List (Event α ε)) : StatsInv (run es) :=
  runFrom_of_micro StatsInv statsInv_micro _ (by simp [StatsInv, Server.init, timedOut]) es

/-- The rounding of the double-precision arithmetic shows at 23 successes and 137
errors: the product is just below 14.375 and is written `14.37`. -/
theorem toFixed2_rounds_as_double : toFixed2 23 (23 + 137) = "14.37" := by
  decide

/-- C7 (statistics).  Starting from the zeroed statistics, after any sequence of events
in which `s` calls of `saveSurveyToExcel` fulfilled, `f` threw and no record timed
out, `totalProcessed = s` and `totalErrors = f`, whatever the order; with `s = 7` and
`f = 3` the queue-status snapshot reports the success rate `70.00%`. -/
theorem stats_counts (es : List (Event α ε)) (s f : Nat)
    (hs : (run es).trace.countP Effect.isReturned = s)
    (hf : (run es).trace.countP Effect.isThrew = f)
    (hto : timedOut (run es).trace = []) :
    (run es).queueStats.totalProcessed = s ∧ (run es).queueStats.totalErrors = f ∧
      (s = 7 → f = 3 → (queueStatus (run es)).successRate = "70.00%") := by
  obtain ⟨h1, h2⟩ := statsInv_run es
  rw [hs] at h1
  rw [hf, hto] at h2
  refine ⟨h1, by simpa using h2, ?_⟩
  intro h7 h3
  subst h7 h3
  simp only [queueStatus, successRate, h1, h2]
  decide

end Stats

/-- Witness of `stats_counts`: ten submissions, seven writes fulfilled and three
failed in mixed order. -/
theorem stats_counts_witness :
    (run mixedBatch).trace.countP Effect.isReturned = 7 ∧
      (run mixedBatch).trace.countP Effect.isThrew = 3 ∧
      timedOut (run mixedBatch).trace = [] ∧
      (run mixedBatch).queueStats.totalProcessed = 7 ∧
      (run mixedBatch).queueStats.totalErrors = 3 ∧
      (queueStatus (run mixedBatch)).successRate = "70.00%" :=
  have h := stats_counts mixedBatch 7 3 (by decide) (by decide) (by decide)
  ⟨by decide, by decide, by decide, h.1, h.2.1, h.2.2 rfl rfl⟩

/-- C8, at the failing input: after one submission whose write failed, `totalProcessed`
is 0 and `totalErrors` is 1, the formula `totalProcessed / (totalProcessed +
totalErrors) * 100` gives `0.00`, and the queue-status snapshot reports `100%`. -/
theorem successRate_all_failed :
    (run failedOnce).queueStats.totalProcessed = 0 ∧
      (run failedOnce).queueStats.totalErrors = 1 ∧
      toFixed2 (run failedOnce).queueStats.totalProcessed
        ((run failedOnce).queueStats.totalProcessed +
          (run failedOnce).queueStats.totalErrors) ++ "%" = "0.00%" ∧
      (queueStatus (run failedOnce)).successRate = "100%" := by
  decide

section ErrorCounter
variable {α ε : Type}

theorem errors_micro (s t : Server α ε) (hm : Micro s t)
    (h : s.queueStats.totalErrors + s.trace.countP Effect.isQueueFull =
      s.trace.countP Effect.isReject) :
    t.queueStats.totalErrors + t.trace.countP Effect.isQueueFull =
      t.trace.countP Effect.isReject := by
  cases hm <;>
    simp [Effect.isQueueFull, Effect.isReject, List.countP_append, queueFullMessage,
      queueTimeoutMessage] <;> omega

/-- C9 (failures and the error counter, as the code has it).  After any sequence of
events `totalErrors` is the number of `reject` calls made for accepted records, that
is all `reject` calls except those with the queue-full error: every queue-timeout and
every persistence failure adds one to `totalErrors`, a queue-full rejection adds
nothing. -/
theorem totalErrors_counts_rejects (es : List (Event α ε)) :
    (run es).queueStats.totalErrors + (run es).trace.countP Effect.isQueueFull =
        (run es).trace.countP Effect.isReject ∧
      (run es).queueStats.totalErrors =
        (run es).trace.countP Effect.isThrew + (timedOut (run es).trace).length :=
  ⟨runFrom_of_micro
    (fun s : Server α ε => s.queueStats.totalErrors + s.trace.countP Effect.isQueueFull =
      s.trace.countP Effect.isReject) errors_micro _ (by simp [Server.init]) es,
    (statsInv_run es).2⟩

end ErrorCounter

set_option maxRecDepth 100000 in
/-- C9, counterexample to the claim as stated: after a burst of 102 submissions the
next `queueExcelWrite` is rejected with the queue-full error and `totalErrors` stays
what it was, 0. -/
theorem queue_full_not_counted :
    (queueExcelWrite 7 "r" (Clock.const 0) (run (burst 102))).trace =
        (run (burst 102)).trace ++
          [Effect.reject 102 (JsError.newError queueFullMessage)] ∧
      (run (burst 102)).queueStats.totalErrors = 0 ∧
      (queueExcelWrite 7 "r" (Clock.const 0) (run (burst 102))).queueStats.totalErrors = 0 := by
  decide

section Lifecycle
variable {α ε : Type}

theorem countP_eraseIdx (f : QueueItem α → Bool) (l : List (QueueItem α)) (i : Nat)
    (x : QueueItem α) (h : l[i]? = some x) :
    l.countP f = (l.eraseIdx i).countP f + (if f x then 1 else 0) := by
  induction l generalizing i with
  | nil => simp at h
  | cons a l ih =>
    cases i with
    | zero =>
      simp only [List.getElem?_cons_zero, Option.some.injEq] at h
      subst h
      simp [List.countP_cons]
    | succ n =>
      simp only [List.getElem?_cons_succ] at h
      simp only [List.eraseIdx_cons_succ, List.countP_cons]
      rw [ih n h]
      omega

theorem countP_snoc {β : Type} (f : β → Bool) (l : List β) (a : β) :
    (l ++ [a]).countP f = l.countP f + if f a = true then 1 else 0 := by
  simp [List.countP_append, List.countP_cons]

theorem countP_snoc2 {β : Type} (f : β → Bool) (l : List β) (a b : β) :
    (l ++ [a, b]).countP f =
      l.countP f + (if f a = true then 1 else 0) + if f b = true then 1 else 0 := by
  simp [List.countP_append, List.countP_cons]
  omega

theorem account_micro (p : Nat) (s t : Server α ε) (hm : Micro s t) (h : Account p s) :
    Account p t := by
  obtain ⟨h1, h2, h3, h4⟩ := h
  simp only [inQueue, inFlight] at h1 h4
  cases hm with
  | rejectFull =>
    refine ⟨?_, ?_, ?_, ?_⟩ <;>
      simp only [inQueue, inFlight, countP_snoc, Effect.isPushOf,
        Effect.isQueueFullOf, Effect.isResolveOf, Effect.isRejectOf, Effect.isSaveOf,
        decide_eq_true_eq, Bool.and_eq_true, decide_True, Bool.false_eq_true, and_true,
        if_false] <;> (try intro hle) <;> (try split_ifs) <;> omega
  | push data requestId currentTime =>
    refine ⟨?_, ?_, ?_, ?_⟩ <;>
      simp only [inQueue, inFlight, countP_snoc, Effect.isPushOf,
        Effect.isQueueFullOf, Effect.isResolveOf, Effect.isRejectOf, Effect.isSaveOf,
        decide_eq_true_eq, Bool.and_eq_true, decide_True, Bool.false_eq_true, and_true,
        if_false] <;> (try intro hle) <;> (try split_ifs) <;> omega
  | start => exact ⟨h1, h2, h3, h4⟩
  | exit hq => exact ⟨h1, h2, h3, h4⟩
  | timeout item rest hq =>
    rw [hq] at h1 h4
    simp only [List.countP_cons, decide_eq_true_eq] at h1 h4
    refine ⟨?_, ?_, ?_, ?_⟩ <;>
      simp only [inQueue, inFlight, countP_snoc, Effect.isPushOf,
        Effect.isQueueFullOf, Effect.isResolveOf, Effect.isRejectOf, Effect.isSaveOf,
        decide_eq_true_eq, Bool.and_eq_true, decide_True, Bool.false_eq_true, and_true,
        if_false, queueFullMessage, queueTimeoutMessage, String.reduceEq, and_false] <;>
      (try intro hle) <;> (try split_ifs at *) <;> omega
  | save item rest hq =>
    rw [hq] at h1 h4
    simp only [List.countP_cons, decide_eq_true_eq] at h1 h4
    refine ⟨?_, ?_, ?_, ?_⟩ <;>
      simp only [inQueue, inFlight, countP_snoc, Effect.isPushOf,
        Effect.isQueueFullOf, Effect.isResolveOf, Effect.isRejectOf, Effect.isSaveOf,
        decide_eq_true_eq, Bool.and_eq_true, decide_True, Bool.false_eq_true, and_true,
        if_false] <;>
      (try intro hle) <;> (try split_ifs at *) <;> omega
  | settleOk i item now hi =>
    rw [countP_eraseIdx _ s.awaiting i item hi] at h1
    simp only [decide_eq_true_eq] at h1
    refine ⟨?_, ?_, ?_, ?_⟩ <;>
      simp only [inQueue, inFlight, countP_snoc2, Effect.isPushOf,
        Effect.isQueueFullOf, Effect.isResolveOf, Effect.isRejectOf, Effect.isSaveOf,
        decide_eq_true_eq, Bool.and_eq_true, decide_True, Bool.false_eq_true, and_true,
        if_false] <;>
      (try intro hle) <;> (try split_ifs at *) <;> omega
  | settleErr i item e hi =>
    rw [countP_eraseIdx _ s.awaiting i item hi] at h1
    simp only [decide_eq_true_eq] at h1
    refine ⟨?_, ?_, ?_, ?_⟩ <;>
      simp only [inQueue, inFlight, countP_snoc2, Effect.isPushOf,
        Effect.isQueueFullOf, Effect.isResolveOf, Effect.isRejectOf, Effect.isSaveOf,
        decide_eq_true_eq, Bool.and_eq_true, decide_True, Bool.false_eq_true, and_true,
        if_false] <;>
      (try intro hle) <;> (try split_ifs at *) <;> omega

theorem processLoop_trace (q : List (QueueItem α)) (clk : Clock) (s : Server α ε)
    (hq : s.excelWriteQueue = q) : ∃ u, (processLoop q clk s).trace = s.trace ++ u :=
  star_trace (processLoop_micro q clk s hq)

theorem account_run (p : Nat) (es : List (Event α ε)) : Account p (run es) :=
  runFrom_of_micro (Account p) (account_micro p) _
    (by refine ⟨?_, ?_, ?_, ?_⟩ <;> simp [Server.init, inQueue, inFlight]) es

theorem gone_micro (p : Nat) (s t : Server α ε) (hm : Micro s t) (h : Gone p s) : Gone p t := by
  obtain ⟨h1, h2⟩ := h
  simp only [inQueue] at h2
  cases hm with
  | rejectFull => exact ⟨Nat.lt_succ_of_lt h1, h2⟩
  | push data requestId currentTime =>
    refine ⟨Nat.lt_succ_of_lt h1, ?_⟩
    simp only [inQueue, countP_snoc, decide_eq_true_eq]
    split_ifs <;> omega
  | start => exact ⟨h1, h2⟩
  | exit hq => exact ⟨h1, h2⟩
  | timeout item rest hq =>
    rw [hq] at h2
    simp only [List.countP_cons] at h2
    exact ⟨h1, by simp only [inQueue]; omega⟩
  | save item rest hq =>
    rw [hq] at h2
    simp only [List.countP_cons] at h2
    exact ⟨h1, by simp only [inQueue]; omega⟩
  | settleOk i item now hi => exact ⟨h1, h2⟩
  | settleErr i item e hi => exact ⟨h1, h2⟩

theorem promises_micro (s t : Server α ε) (hm : Micro s t) : s.promises ≤ t.promises := by
  cases hm <;> first | exact Nat.le_refl _ | exact Nat.le_succ _

/-- The promise counter never goes down. -/
theorem promises_mono (es fs : List (Event α ε)) :
    (run es).promises ≤ (run (es ++ fs)).promises := by
  rw [run_append]
  exact runFrom_of_micro (fun t : Server α ε => (run es).promises ≤ t.promises)
    (fun a b hm h => le_trans h (promises_micro a b hm)) _ (Nat.le_refl _) fs

theorem ordered_micro (s t : Server α ε) (hm : Micro s t) (h : Ordered s) : Ordered t := by
  obtain ⟨h1, h2⟩ := h
  cases hm with
  | rejectFull => exact ⟨h1, fun i hi => Nat.lt_succ_of_lt (h2 i hi)⟩
  | push data requestId currentTime =>
    constructor
    · show ((s.awaiting ++ (s.excelWriteQueue ++ _)).map QueueItem.promise).Pairwise (· < ·)
      rw [← List.append_assoc, List.map_append, List.pairwise_append]
      refine ⟨h1, by simp, ?_⟩
      intro a ha b hb
      simp only [List.map_cons, List.map_nil, List.mem_singleton] at hb
      obtain ⟨i, hi, rfl⟩ := List.mem_map.1 ha
      rw [hb]
      exact h2 i hi
    · intro i hi
      show i.promise < s.promises + 1
      have hi2 : i ∈ s.awaiting ++ (s.excelWriteQueue ++ _) := hi
      rw [← List.append_assoc, List.mem_append] at hi2
      rcases hi2 with hi2 | hi2
      · exact Nat.lt_succ_of_lt (h2 i hi2)
      · simp only [List.mem_singleton] at hi2
        rw [hi2]
        exact Nat.lt_succ_self _
  | start => exact ⟨h1, h2⟩
  | exit hq => exact ⟨h1, h2⟩
  | timeout item rest hq =>
    rw [hq] at h1 h2
    have hsub : (s.awaiting ++ rest).Sublist (s.awaiting ++ item :: rest) :=
      List.Sublist.append_left (List.sublist_cons_self _ _) _
    exact ⟨List.Pairwise.sublist (List.Sublist.map _ hsub) h1,
      fun i hi => h2 i (hsub.subset hi)⟩
  | save item rest hq =>
    rw [hq] at h1 h2
    constructor
    · show (((s.awaiting ++ [item]) ++ rest).map QueueItem.promise).Pairwise (· < ·)
      simpa using h1
    · intro i hi
      have hi2 : i ∈ (s.awaiting ++ [item]) ++ rest := hi
      exact h2 i (by simpa using hi2)
  | settleOk i item now hi =>
    have hsub : (s.awaiting.eraseIdx i ++ s.excelWriteQueue).Sublist
        (s.awaiting ++ s.excelWriteQueue) :=
      List.Sublist.append_right (List.eraseIdx_sublist _ _) _
    exact ⟨List.Pairwise.sublist (List.Sublist.map _ hsub) h1,
      fun i hi => h2 i (hsub.subset hi)⟩
  | settleErr i item e hi =>
    have hsub : (s.awaiting.eraseIdx i ++ s.excelWriteQueue).Sublist
        (s.awaiting ++ s.excelWriteQueue) :=
      List.Sublist.append_right (List.eraseIdx_sublist _ _) _
    exact ⟨List.Pairwise.sublist (List.Sublist.map _ hsub) h1,
      fun i hi => h2 i (hsub.subset hi)⟩

theorem ordered_run (es : List (Event α ε)) : Ordered (run es) :=
  runFrom_of_micro Ordered ordered_micro _
    (by constructor <;> simp [Server.init]) es

/-- The loop takes records out of the queue: what it leaves in the queue and in flight
is no more than what the queue held. -/
theorem processLoop_ahead (p : Nat) (q : List (QueueItem α)) (clk : Clock) (s : Server α ε)
    (hq : s.excelWriteQueue = q) (ha : s.awaiting = []) :
    ahead p (processLoop q clk s) ≤ q.countP fun item => decide (item.promise ≤ p) := by
  induction q generalizing s clk with
  | nil => simp [processLoop, ahead, hq, ha]
  | cons item rest ih =>
    rw [processLoop]
    simp only
    split
    · refine le_trans (ih _ _ rfl ha) ?_
      simp only [List.countP_cons]
      omega
    · simp only [ahead, ha, List.nil_append, List.countP_append, List.countP_cons,
        List.countP_nil]
      omega

/-- No handler run puts anything ahead of an existing record, and the settling of the
awaited call takes one record away from those up to it. -/
theorem step_ahead (p : Nat) (s : Server α ε) (e : Event α ε) (hq : Quiescent s)
    (ho : Ordered s) (hp : p < s.promises) :
    ahead p (step s e) ≤ ahead p s - (if e.isSettle = true then 1 else 0) := by
  cases e with
  | enqueue data requestId clk =>
    simp only [Event.isSettle, Bool.false_eq_true, ↓reduceIte, Nat.sub_zero, step]
    by_cases hfull : 100 < s.excelWriteQueue.length
    · rw [queueExcelWrite_full _ _ _ _ hfull]
      exact Nat.le_refl _
    · rw [queueExcelWrite_accept _ _ _ _ (Nat.not_lt.1 hfull)]
      have hnew : ¬ s.promises ≤ p := by omega
      unfold processQueue
      split
      · simp [ahead, List.countP_append, List.countP_cons, hnew]
      · rename_i hguard
        have ha : s.awaiting = [] := by
          rcases hq with ⟨_, _, ha⟩ | ⟨hf, _⟩
          · exact ha
          · simp [hf] at hguard
        refine le_trans (processLoop_ahead p _ _ _ rfl ha) ?_
        simp [ahead, List.countP_append, List.countP_cons, hnew]
  | settle i result clk =>
    rcases hq with ⟨_, hq0, ha⟩ | ⟨_, ha⟩
    · have hs : step s (Event.settle i result clk) = s := by
        simp [step, resumeProcessQueue, ha]
      rw [hs]
      simp [ahead, hq0, ha]
    · match hs : s.awaiting, ha with
      | [x], _ =>
        cases i with
        | succ n =>
          have hstep : step s (Event.settle (n + 1) result clk) = s := by
            simp [step, resumeProcessQueue, hs]
          rw [hstep]
          simp [Event.isSettle]
        | zero =>
          simp only [Event.isSettle, ↓reduceIte, step]
          rw [resumeProcessQueue_trace x result clk s hs]
          refine le_trans (processLoop_ahead p _ _ _ rfl rfl) ?_
          simp only [ahead, hs, List.singleton_append, List.countP_cons, decide_eq_true_eq]
          by_cases hx : x.promise ≤ p
          · simp [hx]
          · have hzero : s.excelWriteQueue.countP (fun item => decide (item.promise ≤ p)) = 0 := by
              rw [List.countP_eq_zero]
              intro item hitem
              have hpw := ho.1
              rw [hs] at hpw
              simp only [List.singleton_append, List.map_cons, List.pairwise_cons] at hpw
              have := hpw.1 item.promise (List.mem_map_of_mem _ hitem)
              simp only [decide_eq_true_eq]
              omega
            rw [hzero]
            exact Nat.zero_le _

theorem ahead_after (p : Nat) (fs : List (Event α ε)) (es : List (Event α ε))
    (hp : p < (run es).promises) (h : ahead p (run es) ≤ fs.countP Event.isSettle) :
    ahead p (run (es ++ fs)) = 0 := by
  induction fs generalizing es with
  | nil =>
    simp only [List.countP_nil, Nat.le_zero] at h
    simpa using h
  | cons e rest ih =>
    have hrun : run (es ++ [e]) = step (run es) e := by
      rw [run_append]
      rfl
    have hstep := step_ahead p (run es) e (quiescent_run es) (ordered_run es) hp
    have hp2 : p < (run (es ++ [e])).promises := by
      have hmono := promises_mono es [e]
      omega
    have := ih (es ++ [e]) hp2 (by
      rw [hrun]
      simp only [List.countP_cons] at h
      split_ifs at h hstep <;> omega)
    simpa using this

/-- The record of promise `p`, in the queue or in flight, counts among the records up
to it. -/
theorem located_le_ahead (p : Nat) (s : Server α ε) :
    inQueue p s + inFlight p s ≤ ahead p s := by
  have h1 : ∀ l : List (QueueItem α),
      l.countP (fun item => decide (item.promise = p)) ≤
        l.countP (fun item => decide (item.promise ≤ p)) := by
    intro l
    apply List.countP_mono_left
    intro x _ hx
    simp only [decide_eq_true_eq] at hx ⊢
    omega
  have ha := h1 s.awaiting
  have hb := h1 s.excelWriteQueue
  simp only [inQueue, inFlight, ahead, List.countP_append]
  omega

/-- The trace of a longer run extends the trace of the run so far. -/
theorem trace_mono (es fs : List (Event α ε)) :
    ∃ u, (run (es ++ fs)).trace = (run es).trace ++ u := by
  rw [run_append]
  exact runFrom_of_micro (fun t : Server α ε => ∃ u, t.trace = (run es).trace ++ u)
    (fun a b hm h => by
      obtain ⟨u, hu⟩ := h
      obtain ⟨v, hv⟩ := micro_trace a b hm
      exact ⟨u ++ v, by rw [hv, hu, List.append_assoc]⟩) _ ⟨[], by simp⟩ fs

/-- C10 (record lifecycle).  For a record accepted by `queueExcelWrite` (its push is in
the trace), in every reachable state: it has been pushed exactly once; it is in exactly
one of three places, once in the queue, or in flight, or completed with exactly one call
of exactly one of `resolve` and `reject`; `saveSurveyToExcel` has been called for it at
most once; once it is out of the queue it is never in the queue again; when it is in
flight, the settling of the call completes it; and however further `queueExcelWrite`
calls interleave, once the awaited call has settled as many times as there are records
up to this one in flight and in the queue (at most all of them), exactly one call of
exactly one of its two callbacks has been made, and the record is neither in the queue
nor in flight. -/
theorem record_lifecycle (es : List (Event α ε)) (p : Nat) (d : α) (ts : Nat)
    (h : Effect.push p d ts ∈ (run es).trace) :
    (run es).trace.countP (Effect.isPushOf p) = 1 ∧
      inQueue p (run es) + inFlight p (run es) +
        (run es).trace.countP (Effect.isResolveOf p) +
        (run es).trace.countP (Effect.isRejectOf p) = 1 ∧
      (run es).trace.countP (Effect.isSaveOf p) ≤ 1 ∧
      (∀ fs : List (Event α ε), inQueue p (run es) = 0 →
        inQueue p (runFrom (run es) fs) = 0) ∧
      (∀ (result : Except ε Unit) (clk : Clock), 0 < inFlight p (run es) →
        (step (run es) (Event.settle 0 result clk)).trace.countP (Effect.isResolveOf p) +
          (step (run es) (Event.settle 0 result clk)).trace.countP (Effect.isRejectOf p) = 1 ∧
        inQueue p (step (run es) (Event.settle 0 result clk)) = 0 ∧
        inFlight p (step (run es) (Event.settle 0 result clk)) = 0) ∧
      ahead p (run es) ≤ (run es).excelWriteQueue.length + (run es).awaiting.length ∧
      (∀ fs : List (Event α ε), ahead p (run es) ≤ fs.countP Event.isSettle →
        (run (es ++ fs)).trace.countP (Effect.isResolveOf p) +
          (run (es ++ fs)).trace.countP (Effect.isRejectOf p) = 1 ∧
        inQueue p (run (es ++ fs)) = 0 ∧ inFlight p (run (es ++ fs)) = 0 ∧
        (run (es ++ fs)).trace.countP (Effect.isSaveOf p) ≤ 1) := by
  obtain ⟨h1, h2, h3, h4⟩ := account_run p es
  have hpos : 0 < (run es).trace.countP (Effect.isPushOf p) :=
    List.countP_pos_iff.2 ⟨_, h, by simp [Effect.isPushOf]⟩
  have hlt : p < (run es).promises := by
    by_contra hcon
    have := h3 (by omega)
    omega
  refine ⟨by omega, by omega, by omega, ?_, ?_, ?_, ?_⟩
  · intro fs hq
    exact (runFrom_of_micro (Gone p) (gone_micro p) _ ⟨hlt, hq⟩ fs).2
  · intro result clk hfl
    obtain ⟨x, hx⟩ : ∃ x, (run es).awaiting = [x] := by
      rcases quiescent_run es with ⟨_, _, ha⟩ | ⟨_, ha⟩
      · simp [inFlight, ha] at hfl
      · match hs : (run es).awaiting, ha with
        | [x], _ => exact ⟨x, rfl⟩
    have hxp : x.promise = p := by
      simp only [inFlight, hx, List.countP_cons, List.countP_nil, decide_eq_true_eq] at hfl
      by_contra hne
      simp [hne] at hfl
    have hstep : step (run es) (Event.settle 0 result clk) =
        run (es ++ [Event.settle 0 result clk]) := by
      rw [run_append]
      rfl
    obtain ⟨u, hu⟩ : ∃ u, (step (run es) (Event.settle 0 result clk)).trace =
        ((run es).trace ++ settleEffects x.promise result) ++ u := by
      simp only [step]
      rw [resumeProcessQueue_trace x result clk _ hx]
      exact processLoop_trace _ _ _ rfl
    have hge : 1 ≤
        (step (run es) (Event.settle 0 result clk)).trace.countP (Effect.isResolveOf p) +
          (step (run es) (Event.settle 0 result clk)).trace.countP (Effect.isRejectOf p) := by
      rw [hu, hxp]
      cases result <;>
        simp [settleEffects, List.countP_append, List.countP_cons, Effect.isResolveOf,
          Effect.isRejectOf] <;> omega
    obtain ⟨k1, k2, _, _⟩ := account_run p (es ++ [Event.settle 0 result clk])
    rw [← hstep] at k1 k2
    omega
  · simp only [ahead, List.countP_append]
    have ha := List.countP_le_length (fun item : QueueItem α => decide (item.promise ≤ p))
      (l := (run es).awaiting)
    have hb := List.countP_le_length (fun item : QueueItem α => decide (item.promise ≤ p))
      (l := (run es).excelWriteQueue)
    omega
  · intro fs hfs
    have hzero := ahead_after p fs es hlt hfs
    have hloc := located_le_ahead p (run (es ++ fs))
    obtain ⟨u, hu⟩ := trace_mono es fs
    have hpos2 : 0 < (run (es ++ fs)).trace.countP (Effect.isPushOf p) := by
      rw [hu, List.countP_append]
      omega
    obtain ⟨k1, k2, _, k4⟩ := account_run p (es ++ fs)
    omega

end Lifecycle

/-- Witness of `record_lifecycle`: the second record of a burst of three is pending
behind the write in flight; after that write has fulfilled and its own has failed,
its `reject` callback has been called once and its `resolve` callback never. -/
theorem record_lifecycle_witness :
    Effect.push 1 2 1 ∈ (run threePending).trace ∧
      (run threePending).trace.countP (Effect.isPushOf 1) = 1 ∧
      inQueue 1 (run threePending) = 1 ∧
      ahead 1 (run threePending) ≤ [fulfilAt 10, failAt 20].countP Event.isSettle ∧
      (run (threePending ++ [fulfilAt 10, failAt 20])).trace.countP (Effect.isResolveOf 1) +
        (run (threePending ++ [fulfilAt 10, failAt 20])).trace.countP
          (Effect.isRejectOf 1) = 1 ∧
      (run (threePending ++ [fulfilAt 10, failAt 20])).trace.countP
        (Effect.isRejectOf 1) = 1 :=
  have h := record_lifecycle threePending 1 2 1 (by decide)
  ⟨by decide, h.1, by decide, by decide,
    (h.2.2.2.2.2.2 [fulfilAt 10, failAt 20] (by decide)).1, by decide⟩

section DrainGuard
variable {α ε : Type}

/-- C11 (no stranded record).  After any sequence of events, if no drain is running
(`isProcessingQueue` is false) the queue is empty and no call is awaited; and if a drain
is running, exactly one `processQueue` activation is suspended at its `await`, so pending
records always have an active drain. -/
theorem idle_queue_empty (es : List (Event α ε)) :
    ((run es).isProcessingQueue = false →
        (run es).excelWriteQueue = [] ∧ (run es).awaiting = []) ∧
      ((run es).excelWriteQueue ≠ [] →
        (run es).isProcessingQueue = true ∧ (run es).awaiting.length = 1) := by
  rcases quiescent_run es with ⟨hf, hq, ha⟩ | ⟨hf, ha⟩
  · exact ⟨fun _ => ⟨hq, ha⟩, fun h => absurd hq h⟩
  · refine ⟨fun h => ?_, fun _ => ⟨hf, ha⟩⟩
    rw [hf] at h
    cases h

/-- C12 (idempotent trigger).  A call of `processQueue` while a drain is running or
while the queue is empty returns the state as it is: queue, flag, statistics, awaited
calls and trace are unchanged, so no `saveSurveyToExcel` call is started; and any
number of such calls during a running drain leaves the state as it is. -/
theorem processQueue_noop (clk : Clock) (s : Server α ε)
    (h : s.isProcessingQueue = true ∨ s.excelWriteQueue = []) :
    processQueue clk s = s ∧
      ∀ clks : List Clock, s.isProcessingQueue = true →
        clks.foldl (fun t c => processQueue c t) s = s := by
  have h1 : ∀ (c : Clock) (t : Server α ε),
      t.isProcessingQueue = true ∨ t.excelWriteQueue = [] → processQueue c t = t := by
    intro c t ht
    unfold processQueue
    rcases ht with ht | ht
    · simp [ht]
    · simp [ht]
  refine ⟨h1 clk s h, ?_⟩
  intro clks hf
  induction clks with
  | nil => rfl
  | cons c cs ih =>
    simp only [List.foldl_cons]
    rw [h1 c s (Or.inl hf)]
    exact ih

end DrainGuard

/-- Witness of `idle_queue_empty`: after a burst of three submissions whose writes
have all settled no drain is running and the queue is empty. -/
theorem idle_queue_empty_witness :
    (run burstOfThree).isProcessingQueue = false ∧ (run burstOfThree).excelWriteQueue = [] ∧
      (run burstOfThree).awaiting = [] :=
  ⟨by decide, (idle_queue_empty burstOfThree).1 (by decide)⟩

/-- Witness of `processQueue_noop`: with one write in flight `processQueue` changes
nothing. -/
theorem processQueue_noop_witness :
    (busyServer.isProcessingQueue = true ∨ busyServer.excelWriteQueue = []) ∧
      processQueue (Clock.const 5) busyServer = busyServer :=
  ⟨Or.inl (by decide), (processQueue_noop (Clock.const 5) busyServer (Or.inl (by decide))).1⟩

section PersistenceFailure
variable {α ε : Type}

theorem processLoop_stats (q : List (QueueItem α)) (clk : Clock) (s : Server α ε) :
    (processLoop q clk s).queueStats.totalProcessed = s.queueStats.totalProcessed ∧
      (processLoop q clk s).queueStats.lastProcessedAt = s.queueStats.lastProcessedAt ∧
      (processLoop q clk s).queueStats.maxQueueSize = s.queueStats.maxQueueSize := by
  induction q generalizing s clk with
  | nil => exact ⟨rfl, rfl, rfl⟩
  | cons item rest ih =>
    rw [processLoop]
    simp only
    split
    · exact ih _ _
    · exact ⟨rfl, rfl, rfl⟩

/-- C13 (the loop goes on after a failure, as the code has it).  When the awaited
`saveSurveyToExcel` call throws, the activation is back at the loop head with the flag
and the queue as they were (the failed record is not put back) and goes on as after a
success: a next pending record that has waited at most 60000 ms is popped and handed to
`saveSurveyToExcel`, the flag stays set and the records behind it stay in the queue in
their order; a next pending record that has waited longer is popped and rejected with
the queue-timeout error and the loop goes on with the records behind it; with no record
pending the loop ends and clears the flag.  In a reachable state the failed record is
afterwards neither in the queue nor in flight and has had one `saveSurveyToExcel` call
at most. -/
theorem failure_does_not_stop_loop (x : QueueItem α) (e : ε) (clk : Clock) (s : Server α ε)
    (ha : s.awaiting = [x]) :
    (∃ s1 : Server α ε,
      resumeProcessQueue 0 (Except.error e) clk s = processLoop s.excelWriteQueue clk s1 ∧
      s1.isProcessingQueue = s.isProcessingQueue ∧ s1.excelWriteQueue = s.excelWriteQueue ∧
      s1.awaiting = []) ∧
    (∀ (next : QueueItem α) (rest : List (QueueItem α)), s.excelWriteQueue = next :: rest →
      ¬ (clk.now : Int) - (next.timestamp : Int) > 60000 →
      (resumeProcessQueue 0 (Except.error e) clk s).isProcessingQueue = s.isProcessingQueue ∧
      (resumeProcessQueue 0 (Except.error e) clk s).excelWriteQueue = rest ∧
      (resumeProcessQueue 0 (Except.error e) clk s).awaiting = [next] ∧
      (resumeProcessQueue 0 (Except.error e) clk s).trace =
        s.trace ++ [Effect.threw x.promise e, Effect.reject x.promise (JsError.thrown e),
          Effect.saveSurveyToExcel next.promise next.data]) ∧
    (∀ es : List (Event α ε), s = run es →
      inQueue x.promise (resumeProcessQueue 0 (Except.error e) clk s) = 0 ∧
      inFlight x.promise (resumeProcessQueue 0 (Except.error e) clk s) = 0 ∧
      (resumeProcessQueue 0 (Except.error e) clk s).trace.countP
        (Effect.isSaveOf x.promise) ≤ 1) ∧
    (s.excelWriteQueue = [] →
      (resumeProcessQueue 0 (Except.error e) clk s).isProcessingQueue = false ∧
      (resumeProcessQueue 0 (Except.error e) clk s).excelWriteQueue = [] ∧
      (resumeProcessQueue 0 (Except.error e) clk s).awaiting = [] ∧
      (resumeProcessQueue 0 (Except.error e) clk s).trace =
        s.trace ++ [Effect.threw x.promise e, Effect.reject x.promise (JsError.thrown e)]) ∧
    (∀ (next : QueueItem α) (rest : List (QueueItem α)), s.excelWriteQueue = next :: rest →
      (clk.now : Int) - (next.timestamp : Int) > 60000 →
      resumeProcessQueue 0 (Except.error e) clk s =
        processLoop rest clk.next
          { s with
            excelWriteQueue := rest
            awaiting := []
            trace := s.trace ++
              [Effect.threw x.promise e, Effect.reject x.promise (JsError.thrown e),
                Effect.reject next.promise (JsError.newError queueTimeoutMessage)]
            queueStats :=
              { s.queueStats with totalErrors := s.queueStats.totalErrors + 2 } }) := by
  have hres := resumeProcessQueue_trace x (Except.error e) clk s ha
  simp only [resumeClock, settleEffects] at hres
  refine ⟨⟨_, hres, rfl, rfl, rfl⟩, ?_, ?_, ?_, ?_⟩
  rotate_left 2
  · intro hq
    rw [hres, hq]
    exact ⟨rfl, rfl, rfl, rfl⟩
  · intro next rest hq hnext
    rw [hres, hq, processLoop_cons_timeout _ _ _ _ hnext]
    simp
  · intro next rest hq hnext
    rw [hres, hq, processLoop_cons_save _ _ _ _ hnext]
    simp
  · intro es hs
    subst hs
    have hstep : resumeProcessQueue 0 (Except.error e) clk (run es) =
        run (es ++ [Event.settle 0 (Except.error e) clk]) := by
      rw [run_append]
      rfl
    obtain ⟨u, hu⟩ : ∃ u, (resumeProcessQueue 0 (Except.error e) clk (run es)).trace =
        ((run es).trace ++
          [Effect.threw x.promise e, Effect.reject x.promise (JsError.thrown e)]) ++ u := by
      rw [hres]
      exact processLoop_trace _ _ _ rfl
    have hge : 1 ≤ (resumeProcessQueue 0 (Except.error e) clk (run es)).trace.countP
        (Effect.isRejectOf x.promise) := by
      rw [hu]
      simp [List.countP_append, List.countP_cons, Effect.isRejectOf]
      omega
    obtain ⟨k1, k2, _, k4⟩ := account_run x.promise (es ++ [Event.settle 0 (Except.error e) clk])
    rw [← hstep] at k1 k2 k4
    omega

end PersistenceFailure

/-- Witness of `failure_does_not_stop_loop`: behind a failing first write the second
record, enqueued at time 5, is popped and saved at time 10. -/
theorem failure_does_not_stop_loop_witness :
    (run failThenNext).awaiting = [sampleItem 0 1 0] ∧
      (resumeProcessQueue 0 (Except.error "boom") (Clock.const 10) (run failThenNext)).awaiting =
        [sampleItem 1 2 5] ∧
      (resumeProcessQueue 0 (Except.error "boom") (Clock.const 10)
        (run failThenNext)).isProcessingQueue = true :=
  have h := failure_does_not_stop_loop (sampleItem 0 1 0) "boom" (Clock.const 10)
    (run failThenNext) (by decide)
  have h2 := h.2.1 (sampleItem 1 2 5) [] (by decide) (by decide)
  ⟨by decide, h2.2.2.1, h2.1.trans (by decide)⟩

/-- C13, counterexample to the claim as stated: when the write in flight fails and no
record is pending, the flag is cleared; and when the next pending record has waited
more than 60 s at the failure, it is rejected with the queue-timeout error without a
`saveSurveyToExcel` call, and the flag is cleared as well. -/
theorem failure_can_clear_flag :
    busyServer.isProcessingQueue = true ∧ busyServer.awaiting = [sampleItem 0 1 0] ∧
      (resumeProcessQueue 0 (Except.error "boom") (Clock.const 10)
        busyServer).isProcessingQueue = false ∧
      (run failThenNext).isProcessingQueue = true ∧
      (run failThenNext).excelWriteQueue = [sampleItem 1 2 5] ∧
      (resumeProcessQueue 0 (Except.error "boom") (Clock.const 70000)
        (run failThenNext)).trace.countP (Effect.isSaveOf 1) = 0 ∧
      (resumeProcessQueue 0 (Except.error "boom") (Clock.const 70000)
        (run failThenNext)).trace.getLast? =
          some (Effect.reject 1 (JsError.newError queueTimeoutMessage)) ∧
      (resumeProcessQueue 0 (Except.error "boom") (Clock.const 70000)
        (run failThenNext)).isProcessingQueue = false := by
  decide

section ErrorPassThrough
variable {α ε : Type}

/-- C14 (the error is passed on as it is).  When the awaited `saveSurveyToExcel` call
of record `x` throws `e`, the catch block calls `reject` of that record with the very
value `e` and adds one to `totalErrors`, leaving the other statistics alone, before the
loop goes on; at the end of the handler run `totalProcessed` and `lastProcessedAt` are
what they were, and when the queue is empty or its head has not timed out `totalErrors`
is exactly one more. -/
theorem failure_rejects_with_same_error (x : QueueItem α) (e : ε) (clk : Clock)
    (s : Server α ε) (ha : s.awaiting = [x]) :
    (∃ s1 : Server α ε,
      resumeProcessQueue 0 (Except.error e) clk s = processLoop s.excelWriteQueue clk s1 ∧
      s1.trace = s.trace ++
        [Effect.threw x.promise e, Effect.reject x.promise (JsError.thrown e)] ∧
      s1.queueStats.totalErrors = s.queueStats.totalErrors + 1 ∧
      s1.queueStats.totalProcessed = s.queueStats.totalProcessed ∧
      s1.queueStats.lastProcessedAt = s.queueStats.lastProcessedAt ∧
      s1.queueStats.maxQueueSize = s.queueStats.maxQueueSize) ∧
    (∃ u, (resumeProcessQueue 0 (Except.error e) clk s).trace =
      s.trace ++ Effect.threw x.promise e :: Effect.reject x.promise (JsError.thrown e) :: u) ∧
    (resumeProcessQueue 0 (Except.error e) clk s).queueStats.totalProcessed =
      s.queueStats.totalProcessed ∧
    (resumeProcessQueue 0 (Except.error e) clk s).queueStats.lastProcessedAt =
      s.queueStats.lastProcessedAt ∧
    ((s.excelWriteQueue = [] ∨ ∃ next rest, s.excelWriteQueue = next :: rest ∧
        ¬ (clk.now : Int) - (next.timestamp : Int) > 60000) →
      (resumeProcessQueue 0 (Except.error e) clk s).queueStats.totalErrors =
        s.queueStats.totalErrors + 1) := by
  have hres := resumeProcessQueue_trace x (Except.error e) clk s ha
  simp only [resumeClock, settleEffects] at hres
  refine ⟨⟨_, hres, rfl, rfl, rfl, rfl, rfl⟩, ?_, ?_, ?_, ?_⟩
  · rw [hres]
    obtain ⟨u, hu⟩ := processLoop_trace s.excelWriteQueue clk
      ({ s with
        awaiting := []
        trace := s.trace ++
          [Effect.threw x.promise e, Effect.reject x.promise (JsError.thrown e)]
        queueStats := { s.queueStats with totalErrors := s.queueStats.totalErrors + 1 } } :
        Server α ε) rfl
    exact ⟨u, by rw [hu]; simp⟩
  · rw [hres]
    exact (processLoop_stats _ _ _).1
  · rw [hres]
    exact (processLoop_stats _ _ _).2.1
  · intro h
    rw [hres]
    rcases h with hq | ⟨next, rest, hq, hnext⟩
    · rw [hq]
      rfl
    · rw [hq, processLoop_cons_save _ _ _ _ hnext]

end ErrorPassThrough

/-- Witness of `failure_rejects_with_same_error`: the only write in flight throws
`"boom"` and `reject` is called with `"boom"`. -/
theorem failure_rejects_with_same_error_witness :
    busyServer.awaiting = [sampleItem 0 1 0] ∧
      (resumeProcessQueue 0 (Except.error "boom") (Clock.const 10) busyServer).trace =
        busyServer.trace ++
          [Effect.threw 0 "boom", Effect.reject 0 (JsError.thrown "boom")] ∧
      (resumeProcessQueue 0 (Except.error "boom") (Clock.const 10)
        busyServer).queueStats.totalErrors = busyServer.queueStats.totalErrors + 1 :=
  have h := failure_rejects_with_same_error (sampleItem 0 1 0) "boom" (Clock.const 10)
    busyServer (by decide)
  ⟨by decide, by decide, h.2.2.2.2 (Or.inl (by decide))⟩

section Append
variable {α ε : Type}

theorem processLoop_accepted (q : List (QueueItem α)) (clk : Clock) (s : Server α ε) :
    accepted (processLoop q clk s).trace = accepted s.trace := by
  induction q generalizing s clk with
  | nil => rfl
  | cons item rest ih =>
    rw [processLoop]
    simp only
    split
    · rw [ih]
      simp [accepted, Effect.pushed?]
    · simp [accepted, Effect.pushed?]

theorem processLoop_queue (q : List (QueueItem α)) (clk : Clock) (s : Server α ε)
    (hq : s.excelWriteQueue = q) : ∃ k, (processLoop q clk s).excelWriteQueue = q.drop k := by
  induction q generalizing s clk with
  | nil => exact ⟨0, hq⟩
  | cons item rest ih =>
    rw [processLoop]
    simp only
    split
    · obtain ⟨k, hk⟩ := ih clk.next
        ({ s with
          excelWriteQueue := rest
          trace := s.trace ++ [Effect.reject item.promise (JsError.newError queueTimeoutMessage)]
          queueStats := { s.queueStats with totalErrors := s.queueStats.totalErrors + 1 } } :
          Server α ε) rfl
      exact ⟨k + 1, hk⟩
    · exact ⟨1, rfl⟩

theorem processQueue_accepted (clk : Clock) (s : Server α ε) :
    accepted (processQueue clk s).trace = accepted s.trace := by
  unfold processQueue
  split
  · rfl
  · exact processLoop_accepted _ _ _

theorem processQueue_queue (clk : Clock) (s : Server α ε) :
    ∃ k, (processQueue clk s).excelWriteQueue = s.excelWriteQueue.drop k := by
  unfold processQueue
  split
  · exact ⟨0, rfl⟩
  · exact processLoop_queue _ _ _ rfl

/-- C16 (accepted enqueue).  A call `queueExcelWrite(data)` with at most 100 records
pending is the push of one record, with the payload as given and the clock reading of
the call as timestamp, at the tail of the queue, followed by the drain trigger on the
state after the push: the push is the first effect of the call and the only push;
while a drain is running the queue afterwards is the old queue followed by the new
record and nothing else happens; in general it is what the triggered drain has left of
the old queue followed by the new record, in the same order. -/
theorem accepted_enqueue_appends (data : α) (requestId : String) (clk : Clock)
    (s : Server α ε) (h : s.excelWriteQueue.length ≤ 100) :
    queueExcelWrite data requestId clk s =
        processQueue clk.next
          { s with
            promises := s.promises + 1
            excelWriteQueue := s.excelWriteQueue ++
              [{ data := data, promise := s.promises, timestamp := clk.now,
                 requestId := requestId }]
            trace := s.trace ++ [Effect.push s.promises data clk.now] } ∧
      (∃ u, (queueExcelWrite data requestId clk s).trace =
        s.trace ++ Effect.push s.promises data clk.now :: u) ∧
      accepted (queueExcelWrite data requestId clk s).trace =
        accepted s.trace ++ [(s.promises, data)] ∧
      (s.isProcessingQueue = true →
        (queueExcelWrite data requestId clk s).excelWriteQueue =
          s.excelWriteQueue ++
            [{ data := data, promise := s.promises, timestamp := clk.now,
               requestId := requestId }] ∧
        (queueExcelWrite data requestId clk s).trace =
          s.trace ++ [Effect.push s.promises data clk.now]) ∧
      ∃ k, (queueExcelWrite data requestId clk s).excelWriteQueue =
        (s.excelWriteQueue ++
          [({ data := data, promise := s.promises, timestamp := clk.now,
              requestId := requestId } : QueueItem α)]).drop k := by
  have hacc := queueExcelWrite_accept data requestId clk s h
  refine ⟨hacc, ?_, ?_, ?_, ?_⟩
  · obtain ⟨u, hu⟩ := star_trace (processQueue_micro clk.next
      ({ s with
        promises := s.promises + 1
        excelWriteQueue := s.excelWriteQueue ++
          [{ data := data, promise := s.promises, timestamp := clk.now,
             requestId := requestId }]
        trace := s.trace ++ [Effect.push s.promises data clk.now] } : Server α ε))
    rw [← hacc] at hu
    exact ⟨u, by rw [hu]; simp⟩
  · rw [hacc, processQueue_accepted]
    simp [accepted, Effect.pushed?]
  · intro hf
    rw [hacc]
    simp [processQueue, hf]
  · rw [hacc]
    exact processQueue_queue _ _

end Append

/-- Witness of `accepted_enqueue_appends`: with one write in flight, a submission at
time 7 is put at the tail of the queue with timestamp 7. -/
theorem accepted_enqueue_appends_witness :
    busyServer.excelWriteQueue.length ≤ 100 ∧ busyServer.isProcessingQueue = true ∧
      (queueExcelWrite 2 "r" (Clock.const 7) busyServer).excelWriteQueue =
        busyServer.excelWriteQueue ++ [sampleItem 1 2 7] :=
  have h := accepted_enqueue_appends 2 "r" (Clock.const 7) busyServer (by decide)
  ⟨by decide, by decide, (h.2.2.2.1 (by decide)).1⟩


/-- C15, at the failing input: after a burst of three submissions two records are
pending behind the write in flight, and `maxQueueSize`, in the statistics and in the
queue-status snapshot, is 1. -/
theorem maxQueueSize_misses_depth :
    (run (burst 3)).excelWriteQueue.length = 2 ∧ (run (burst 3)).awaiting.length = 1 ∧
      (run (burst 3)).queueStats.maxQueueSize = 1 ∧
      (queueStatus (run (burst 3))).queueSize = 2 ∧
      (queueStatus (run (burst 3))).maxQueueSize = 1 := by
  decide

section Intake
variable {ε : Type}

theorem get_cons (kv : String × JsValue) (o : JsObject) (key : String) :
    JsObject.get (kv :: o) key = if kv.1 = key then kv.2 else JsObject.get o key := by
  unfold JsObject.get
  by_cases h : kv.1 = key
  · simp [List.find?_cons, h]
  · simp [List.find?_cons, h]

theorem get_map_ne (o : JsObject) (key other : String) (v : JsValue) (h : other ≠ key) :
    JsObject.get (o.map (fun kv => if kv.1 == key then (key, v) else kv)) other =
      JsObject.get o other := by
  induction o with
  | nil => rfl
  | cons kv rest ih =>
    rw [List.map_cons, get_cons, get_cons, ih]
    by_cases hk : kv.1 = key
    · have h1 : ¬ key = other := fun h2 => h h2.symm
      have h2 : ¬ kv.1 = other := fun h3 => h (h3.symm.trans hk)
      simp [hk, h1, h2]
    · simp [hk]

theorem get_append_ne (o : JsObject) (key other : String) (v : JsValue) (h : other ≠ key) :
    JsObject.get (o ++ [(key, v)]) other = JsObject.get o other := by
  induction o with
  | nil =>
    have h1 : ¬ key = other := fun h2 => h h2.symm
    simp [get_cons, h1, JsObject.get]
  | cons kv rest ih =>
    rw [List.cons_append, get_cons, get_cons, ih]

/-- Writing one property leaves the others as they are. -/
theorem get_set_ne (o : JsObject) (key other : String) (v : JsValue) (h : other ≠ key) :
    (o.set key v).get other = o.get other := by
  unfold JsObject.set
  split
  · exact get_map_ne o key other v h
  · exact get_append_ne o key other v h

theorem stampedBody_get (toISOString : Nat → String) (body : JsObject) (clk : Clock)
    (key : String) (h : key ≠ "timestamp") :
    (stampedBody toISOString body clk).get key = body.get key := by
  unfold stampedBody
  split
  · rfl
  · exact get_set_ne body "timestamp" key _ h

/-- The handler in terms of the payload as received. -/
theorem postSurvey_eq (toISOString : Nat → String) (body : JsObject) (requestId : String)
    (clk : Clock) (s : Server JsObject ε) :
    postSurvey toISOString body requestId clk s =
      if !(body.get "path").truthy && !(body.get "page_url").truthy then
        ({ status := 400,
           body := [("error", JsValue.string "Page URL or path is required")] }, s)
      else
        ({ status := 200
           body :=
            [("success", JsValue.bool true),
              ("message", JsValue.string "Survey data received and queued for processing"),
              ("timestamp", (stampedBody toISOString body clk).get "timestamp"),
              ("queuePosition", JsValue.number
                ((queueExcelWrite (stampedBody toISOString body clk) requestId
                  (stampedClock body clk) s).excelWriteQueue.length + 1 : Nat))] },
          queueExcelWrite (stampedBody toISOString body clk) requestId
            (stampedClock body clk) s) := by
  have h1 := stampedBody_get toISOString body clk "path" (by decide)
  have h2 := stampedBody_get toISOString body clk "page_url" (by decide)
  unfold stampedBody at h1 h2
  unfold postSurvey stampedBody stampedClock
  by_cases ht : (body.get "timestamp").truthy = true
  · simp only [ht, Bool.not_true, Bool.false_eq_true, ↓reduceIte]
  · simp only [ht, Bool.false_eq_true, ↓reduceIte] at h1 h2
    simp only [ht, Bool.not_false, ↓reduceIte, h1, h2]
    rfl

/-- C17 (fresh queue).  On the freshly initialised server `totalProcessed` and
`totalErrors` are 0 and the queue-status snapshot reports the success rate `100%`. -/
theorem fresh_successRate :
    (Server.init : Server JsObject ε).queueStats.totalProcessed = 0 ∧
      (Server.init : Server JsObject ε).queueStats.totalErrors = 0 ∧
      (queueStatus (Server.init : Server JsObject ε)).successRate = "100%" ∧
      (queueStatus (run [] : Server JsObject ε)).successRate = "100%" :=
  ⟨rfl, rfl, rfl, rfl⟩

/-- C18 (validation).  The handler of `POST /api/survey` responds 400 if and only if
neither `path` nor `page_url` of the payload is truthy, and then the server state is
left as it is (nothing is enqueued); otherwise it responds 200 with `success` true and
its effect on the state is the call of `queueExcelWrite` on the payload, whose `path`
and `page_url` are as received (only a missing `timestamp` is filled in). -/
theorem postSurvey_validation (toISOString : Nat → String) (body : JsObject)
    (requestId : String) (clk : Clock) (s : Server JsObject ε) :
    ((postSurvey toISOString body requestId clk s).1.status = 400 ↔
        (body.get "path").truthy = false ∧ (body.get "page_url").truthy = false) ∧
      ((body.get "path").truthy = false ∧ (body.get "page_url").truthy = false →
        (postSurvey toISOString body requestId clk s).2 = s ∧
        (postSurvey toISOString body requestId clk s).1.body.get "error" =
          JsValue.string "Page URL or path is required") ∧
      ((body.get "path").truthy = true ∨ (body.get "page_url").truthy = true →
        (postSurvey toISOString body requestId clk s).1.status = 200 ∧
        (postSurvey toISOString body requestId clk s).1.body.get "success" =
          JsValue.bool true ∧
        (postSurvey toISOString body requestId clk s).2 =
          queueExcelWrite (stampedBody toISOString body clk) requestId
            (stampedClock body clk) s ∧
        (stampedBody toISOString body clk).get "path" = body.get "path" ∧
        (stampedBody toISOString body clk).get "page_url" = body.get "page_url" ∧
        ((body.get "timestamp").truthy = true → stampedBody toISOString body clk = body)) := by
  rw [postSurvey_eq]
  by_cases h : (body.get "path").truthy = false ∧ (body.get "page_url").truthy = false
  · obtain ⟨h1, h2⟩ := h
    have h3 : (!(body.get "path").truthy && !(body.get "page_url").truthy) = true := by
      simp [h1, h2]
    rw [if_pos h3]
    refine ⟨⟨fun _ => ⟨h1, h2⟩, fun _ => rfl⟩, fun _ => ⟨rfl, by simp [get_cons]⟩, ?_⟩
    intro hc
    rcases hc with hc | hc
    · rw [h1] at hc
      cases hc
    · rw [h2] at hc
      cases hc
  · have h3 : ¬ ((!(body.get "path").truthy && !(body.get "page_url").truthy) = true) := by
      intro hc
      simp only [Bool.and_eq_true, Bool.not_eq_true'] at hc
      exact h hc
    rw [if_neg h3]
    refine ⟨⟨fun hc => by simp at hc, fun hc => absurd hc h⟩, fun hc => absurd hc h, ?_⟩
    intro _
    refine ⟨rfl, by simp [get_cons], rfl,
      stampedBody_get toISOString body clk "path" (by decide),
      stampedBody_get toISOString body clk "page_url" (by decide), ?_⟩
    intro ht
    simp [stampedBody, ht]

end Intake

/-- Witness of `postSurvey_validation`: a payload with a page URL is accepted, on the
fresh server. -/
theorem postSurvey_validation_witness :
    ((sampleBody.get "path").truthy = true ∨ (sampleBody.get "page_url").truthy = true) ∧
      (postSurvey sampleISO sampleBody "r" (Clock.const 0)
        (Server.init : Server JsObject String)).1.status = 200 :=
  ⟨Or.inr (by decide),
    ((postSurvey_validation sampleISO sampleBody "r" (Clock.const 0)
      (Server.init : Server JsObject String)).2.2 (Or.inr (by decide))).1⟩

section Acknowledgment
variable {α ε : Type}

/-- The loop adds only `reject` and `saveSurveyToExcel` effects. -/
theorem processLoop_countP (f : Effect α ε → Bool)
    (hr : ∀ p err, f (Effect.reject p err) = false)
    (hs : ∀ p d, f (Effect.saveSurveyToExcel p d) = false)
    (q : List (QueueItem α)) (clk : Clock) (s : Server α ε) :
    (processLoop q clk s).trace.countP f = s.trace.countP f := by
  induction q generalizing s clk with
  | nil => rfl
  | cons item rest ih =>
    rw [processLoop]
    simp only
    split
    · rw [ih]
      simp [List.countP_append, List.countP_cons, hr]
    · simp [List.countP_append, List.countP_cons, hs]

/-- A call of `queueExcelWrite` adds only `push`, `reject` and `saveSurveyToExcel`
effects. -/
theorem queueExcelWrite_countP (f : Effect α ε → Bool)
    (hp : ∀ p d t, f (Effect.push p d t) = false)
    (hr : ∀ p err, f (Effect.reject p err) = false)
    (hs : ∀ p d, f (Effect.saveSurveyToExcel p d) = false)
    (data : α) (requestId : String) (clk : Clock) (s : Server α ε) :
    (queueExcelWrite data requestId clk s).trace.countP f = s.trace.countP f := by
  unfold queueExcelWrite
  simp only
  split
  · simp [List.countP_append, List.countP_cons, hr]
  · unfold processQueue
    split
    · simp [List.countP_append, List.countP_cons, hp]
    · rw [processLoop_countP f hr hs]
      simp [List.countP_append, List.countP_cons, hp]

/-- C19 (immediate acknowledgment).  For a payload that passes validation the handler
of `POST /api/survey` responds 200 with `success` true and the fixed message whatever
the server state: when more than 100 records are pending, so that `queueExcelWrite`
rejects with the queue-full error, the response is the same acknowledgment; and when
the handler returns no `saveSurveyToExcel` call has settled since it was called, so the
acknowledgment does not wait for persistence and cannot depend on its outcome. -/
theorem postSurvey_acknowledges (toISOString : Nat → String) (body : JsObject)
    (requestId : String) (clk : Clock) (s : Server JsObject ε)
    (h : (body.get "path").truthy = true ∨ (body.get "page_url").truthy = true) :
    (postSurvey toISOString body requestId clk s).1.status = 200 ∧
      (postSurvey toISOString body requestId clk s).1.body.get "success" = JsValue.bool true ∧
      (postSurvey toISOString body requestId clk s).1.body.get "message" =
        JsValue.string "Survey data received and queued for processing" ∧
      (postSurvey toISOString body requestId clk s).1.body.get "error" = JsValue.undefined ∧
      (100 < s.excelWriteQueue.length →
        (postSurvey toISOString body requestId clk s).2.trace =
          s.trace ++ [Effect.reject s.promises (JsError.newError queueFullMessage)] ∧
        (postSurvey toISOString body requestId clk s).2.excelWriteQueue = s.excelWriteQueue) ∧
      (postSurvey toISOString body requestId clk s).2.trace.countP Effect.isReturned =
        s.trace.countP Effect.isReturned ∧
      (postSurvey toISOString body requestId clk s).2.trace.countP Effect.isThrew =
        s.trace.countP Effect.isThrew := by
  rw [postSurvey_eq]
  have h3 : ¬ ((!(body.get "path").truthy && !(body.get "page_url").truthy) = true) := by
    intro hc
    simp only [Bool.and_eq_true, Bool.not_eq_true'] at hc
    rcases h with h | h
    · rw [hc.1] at h
      cases h
    · rw [hc.2] at h
      cases h
  rw [if_neg h3]
  refine ⟨rfl, by simp [get_cons], by simp [get_cons], by simp [get_cons, JsObject.get],
    ?_, ?_, ?_⟩
  · intro hfull
    simp only
    rw [queueExcelWrite_full _ _ _ _ hfull]
    exact ⟨rfl, rfl⟩
  · exact queueExcelWrite_countP _ (fun _ _ _ => rfl) (fun _ _ => rfl) (fun _ _ => rfl) _ _ _ _
  · exact queueExcelWrite_countP _ (fun _ _ _ => rfl) (fun _ _ => rfl) (fun _ _ => rfl) _ _ _ _

end Acknowledgment

set_option maxRecDepth 100000 in
/-- Witness of `postSurvey_acknowledges`: with 101 records pending the submission is
acknowledged with status 200 although `queueExcelWrite` rejects it. -/
theorem postSurvey_acknowledges_witness :
    ((sampleBody.get "path").truthy = true ∨ (sampleBody.get "page_url").truthy = true) ∧
      100 < fullServer.excelWriteQueue.length ∧
      (postSurvey sampleISO sampleBody "r" (Clock.const 0) fullServer).1.status = 200 ∧
      (postSurvey sampleISO sampleBody "r" (Clock.const 0) fullServer).2.excelWriteQueue =
        fullServer.excelWriteQueue :=
  have h := postSurvey_acknowledges sampleISO sampleBody "r" (Clock.const 0) fullServer
    (Or.inr (by decide))
  ⟨Or.inr (by decide), by decide, h.1, (h.2.2.2.2.1 (by decide)).2⟩

section DebugAuth

/-- C20 (bearer token).  In production with the debug endpoints enabled and a
non-empty `DEBUG_PASSWORD`, `debugAuth` calls `next` if and only if the Authorization
header is exactly `Bearer ` followed by the password; with any other header, or none,
it responds 401 `Unauthorized` and `next` is not called. -/
theorem debugAuth_bearer (env : Env) (password : String) (authorization : Option String)
    (hprod : env.NODE_ENV = some "production")
    (hen : env.ENABLE_DEBUG_ENDPOINTS = some "true")
    (hpw : env.DEBUG_PASSWORD = some password) (hne : password ≠ "") :
    (debugAuth env authorization = AuthOutcome.next ↔
        authorization = some ("Bearer " ++ password)) ∧
      (authorization ≠ some ("Bearer " ++ password) →
        debugAuth env authorization = AuthOutcome.respond 401 "Unauthorized") := by
  have hbearer : "Bearer " ++ password ≠ "" := by
    intro hc
    have := congrArg String.length hc
    simp only [String.length_append] at this
    have h7 : "Bearer ".length = 7 := by decide
    have h0 : "".length = 0 := by decide
    omega
  by_cases ha : authorization = some ("Bearer " ++ password)
  · subst ha
    simp [debugAuth, isProduction, enableDebugEndpoints, hprod, hen, hpw, stringTruthy, hne,
      hbearer]
  · have key : debugAuth env authorization = AuthOutcome.respond 401 "Unauthorized" := by
      simp [debugAuth, isProduction, enableDebugEndpoints, hprod, hen, hpw, stringTruthy, hne,
        ha]
    refine ⟨⟨fun h => ?_, fun h => absurd h ha⟩, fun _ => key⟩
    rw [key] at h
    cases h

end DebugAuth

/-- Witness of `debugAuth_bearer`: the password `test123` with the right header, a
wrong one and none. -/
theorem debugAuth_bearer_witness :
    debugAuth protectedEnv (some "Bearer test123") = AuthOutcome.next ∧
      debugAuth protectedEnv (some "Bearer wrong-password") =
        AuthOutcome.respond 401 "Unauthorized" ∧
      debugAuth protectedEnv none = AuthOutcome.respond 401 "Unauthorized" :=
  ⟨(debugAuth_bearer protectedEnv "test123" (some "Bearer test123") rfl rfl rfl
      (by decide)).1.2 rfl,
    (debugAuth_bearer protectedEnv "test123" (some "Bearer wrong-password") rfl rfl rfl
      (by decide)).2 (by decide),
    (debugAuth_bearer protectedEnv "test123" none rfl rfl rfl (by decide)).2 (by decide)⟩

section DebugGate

/-- C21 (debug endpoints disabled).  In production, when `ENABLE_DEBUG_ENDPOINTS` is
not the string `true` (unset included), `debugAuth` responds 404 `Endpoint not found`
and does not call `next`, whatever the Authorization header and `DEBUG_PASSWORD`
are. -/
theorem debugAuth_disabled (env : Env) (authorization : Option String)
    (hprod : env.NODE_ENV = some "production")
    (hen : env.ENABLE_DEBUG_ENDPOINTS ≠ some "true") :
    debugAuth env authorization = AuthOutcome.respond 404 "Endpoint not found" ∧
      debugAuth env authorization ≠ AuthOutcome.next := by
  have h : debugAuth env authorization = AuthOutcome.respond 404 "Endpoint not found" := by
    simp [debugAuth, isProduction, enableDebugEndpoints, hprod, hen]
  exact ⟨h, by rw [h]; exact fun hc => by cases hc⟩

/-- C22 (outside production).  When `NODE_ENV` is anything other than `production`
(unset included), `debugAuth` calls `next` and sends no response, whatever
`ENABLE_DEBUG_ENDPOINTS`, `DEBUG_PASSWORD` and the Authorization header are. -/
theorem debugAuth_not_production (env : Env) (authorization : Option String)
    (hprod : env.NODE_ENV ≠ some "production") :
    debugAuth env authorization = AuthOutcome.next := by
  simp [debugAuth, isProduction, hprod]

/-- C27 (no password set).  In production with the debug endpoints enabled, when
`DEBUG_PASSWORD` is unset or the empty string, `debugAuth` calls `next` for every
request, with any Authorization header or none. -/
theorem debugAuth_without_password (env : Env) (authorization : Option String)
    (hprod : env.NODE_ENV = some "production")
    (hen : env.ENABLE_DEBUG_ENDPOINTS = some "true")
    (hpw : env.DEBUG_PASSWORD = none ∨ env.DEBUG_PASSWORD = some "") :
    debugAuth env authorization = AuthOutcome.next := by
  rcases hpw with hpw | hpw <;>
    simp [debugAuth, isProduction, enableDebugEndpoints, hprod, hen, hpw, stringTruthy]

end DebugGate

/-- Witness of `debugAuth_disabled`: production with `ENABLE_DEBUG_ENDPOINTS=false`
and the right bearer token. -/
theorem debugAuth_disabled_witness :
    debugAuth closedEnv (some "Bearer test123") =
      AuthOutcome.respond 404 "Endpoint not found" :=
  (debugAuth_disabled closedEnv (some "Bearer test123") rfl (by decide)).1

/-- Witness of `debugAuth_not_production`: the test environment, no header. -/
theorem debugAuth_not_production_witness : debugAuth testEnv none = AuthOutcome.next :=
  debugAuth_not_production testEnv none (by decide)

/-- Witness of `debugAuth_without_password`: production, endpoints enabled, no
password, no header. -/
theorem debugAuth_without_password_witness : debugAuth openEnv none = AuthOutcome.next :=
  debugAuth_without_password openEnv none rfl rfl (Or.inl rfl)

section Snapshot
variable {α ε : Type}

/-- C23 (pure read).  The queue-status handler answers 200 with `queueSize` the number
of pending records, `isProcessing` the drain flag, and the counters as they stand, and
leaves the module state as it is, in every state, a running drain included; the events
that follow go as if it had not been called. -/
theorem getQueueStatus_pure (s : Server α ε) :
    (getQueueStatus s).1 = 200 ∧
      (getQueueStatus s).2.1.queueSize = s.excelWriteQueue.length ∧
      (getQueueStatus s).2.1.isProcessing = s.isProcessingQueue ∧
      (getQueueStatus s).2.1.stats = s.queueStats ∧
      (getQueueStatus s).2.1.maxQueueSize = s.queueStats.maxQueueSize ∧
      (getQueueStatus s).2.1.successRate = successRate s.queueStats ∧
      (getQueueStatus s).2.2 = s ∧
      ∀ fs : List (Event α ε), runFrom (getQueueStatus s).2.2 fs = runFrom s fs :=
  ⟨rfl, rfl, rfl, rfl, rfl, rfl, rfl, fun _ => rfl⟩

theorem conservation_micro (s t : Server α ε) (hm : Micro s t)
    (h : (accepted s.trace).length =
      s.queueStats.totalProcessed + s.queueStats.totalErrors + s.excelWriteQueue.length +
        s.awaiting.length) :
    (accepted t.trace).length =
      t.queueStats.totalProcessed + t.queueStats.totalErrors + t.excelWriteQueue.length +
        t.awaiting.length := by
  simp only [accepted] at h
  cases hm with
  | rejectFull => simpa [accepted, Effect.pushed?] using h
  | push data requestId currentTime =>
    simp [accepted, Effect.pushed?, h]
    omega
  | start => simpa [accepted] using h
  | exit hq => simpa [accepted] using h
  | timeout item rest hq =>
    rw [hq] at h
    simp [accepted, Effect.pushed?, h]
    omega
  | save item rest hq =>
    rw [hq] at h
    simp [accepted, Effect.pushed?, h]
    omega
  | settleOk i item now hi =>
    obtain ⟨hlt, _⟩ := List.getElem?_eq_some.1 hi
    simp [accepted, Effect.pushed?, h, List.length_eraseIdx, hlt]
    omega
  | settleErr i item e hi =>
    obtain ⟨hlt, _⟩ := List.getElem?_eq_some.1 hi
    simp [accepted, Effect.pushed?, h, List.length_eraseIdx, hlt]
    omega

/-- C24 (conservation).  After any sequence of events the number of accepted
`queueExcelWrite` calls is `totalProcessed + totalErrors` plus the number of pending
records plus the number of records in flight, and at most one record is in flight. -/
theorem accepted_conservation (es : List (Event α ε)) :
    (accepted (run es).trace).length =
        (run es).queueStats.totalProcessed + (run es).queueStats.totalErrors +
          (run es).excelWriteQueue.length + (run es).awaiting.length ∧
      (run es).awaiting.length ≤ 1 := by
  refine ⟨runFrom_of_micro
    (fun s : Server α ε => (accepted s.trace).length =
      s.queueStats.totalProcessed + s.queueStats.totalErrors + s.excelWriteQueue.length +
        s.awaiting.length) conservation_micro _ (by simp [Server.init, accepted]) es, ?_⟩
  rcases quiescent_run es with ⟨_, _, ha⟩ | ⟨_, ha⟩
  · simp [ha]
  · omega

theorem step_maxQueueSize (s : Server α ε) (e : Event α ε)
    (h : Quiescent s ∧ s.queueStats.maxQueueSize ≤ 1) :
    Quiescent (step s e) ∧ (step s e).queueStats.maxQueueSize ≤ 1 := by
  obtain ⟨hq, hm⟩ := h
  refine ⟨step_quiescent s e hq, ?_⟩
  cases e with
  | enqueue data requestId clk =>
    simp only [step, queueExcelWrite]
    split
    · exact hm
    · unfold processQueue
      split
      · exact hm
      · rename_i hguard
        rw [(processLoop_stats _ _ _).2.2]
        rcases hq with ⟨_, hq0, _⟩ | ⟨hf, _⟩
        · simp only [hq0, List.nil_append, List.length_singleton]
          omega
        · simp [hf] at hguard
  | settle i result clk =>
    simp only [step, resumeProcessQueue]
    split
    · exact hm
    · split
      · rw [(processLoop_stats _ _ _).2.2]
        exact hm
      · rw [(processLoop_stats _ _ _).2.2]
        exact hm

/-- C25 (what `maxQueueSize` holds).  After any sequence of events `maxQueueSize` is 0
or 1: the maximum is taken only when a drain starts, and a drain starts only from the
idle state, whose queue holds just the record pushed by the triggering call. -/
theorem maxQueueSize_le_one (es : List (Event α ε)) :
    (run es).queueStats.maxQueueSize = 0 ∨ (run es).queueStats.maxQueueSize = 1 := by
  have h := (runFrom_invariant
    (fun s : Server α ε => Quiescent s ∧ s.queueStats.maxQueueSize ≤ 1)
    step_maxQueueSize Server.init ⟨Or.inl ⟨rfl, rfl, rfl⟩, Nat.zero_le _⟩ es).2
  have h2 : (run es).queueStats.maxQueueSize ≤ 1 := h
  omega

end Snapshot

section Row

theorem digitChar_ne (n : Nat) : digitChar n ≠ 'T' ∧ digitChar n ≠ 'Z' := by
  have h : ∀ k : Fin 10, Char.ofNat (48 + k.val) ≠ 'T' ∧ Char.ofNat (48 + k.val) ≠ 'Z' := by
    decide
  exact h ⟨n % 10, Nat.mod_lt _ (by decide)⟩

/-- For a year of four digits the pipeline of lines 334 and 339 keeps date and time. -/
theorem excelFormat_chars (t : Int) (h0 : 0 ≤ (dateOf t).year) (h1 : (dateOf t).year ≤ 9999) :
    excelFormat t =
      String.mk (digits4 (dateOf t).year ++ '-' :: digits2 (dateOf t).month ++
        '-' :: digits2 (dateOf t).day ++ ' ' :: digits2 (hourOf t) ++
        ':' :: digits2 (minuteOf t) ++ ':' :: digits2 (secondOf t)) := by
  have hT := fun n => (digitChar_ne n).1
  have hZ := fun n => (digitChar_ne n).2
  simp [excelFormat, isoChars, isoYear, h0, h1, digits4, digits3, digits2, replaceFirst, hT, hZ]

/-- Month, day, hour, minute and second are in their calendar ranges, so that two
digits write them in full. -/
theorem date_fields_bounds (t : Int) :
    1 ≤ (dateOf t).month ∧ (dateOf t).month ≤ 12 ∧ 1 ≤ (dateOf t).day ∧ (dateOf t).day ≤ 31 ∧
      0 ≤ hourOf t ∧ hourOf t ≤ 23 ∧ 0 ≤ minuteOf t ∧ minuteOf t ≤ 59 ∧
      0 ≤ secondOf t ∧ secondOf t ≤ 59 := by
  simp only [dateOf, civilFromDays, hourOf, minuteOf, secondOf]
  refine ⟨?_, ?_, ?_, ?_, ?_, ?_, ?_, ?_, ?_, ?_⟩ <;> (try split_ifs) <;> omega

/-- C28 (timestamp cell).  When the payload timestamp is truthy and parses to a valid
time value `t` whose UTC year has four digits, `saveSurveyToExcel` builds its row, and
the first cell is the string of 19 characters `YYYY-MM-DD HH:MM:SS` made of the UTC
year, month, day, hour, minute and second of `t`: the first ten characters of the ISO
string, a space, and the eight characters after its `T`. -/
theorem timestamp_cell_format (parseDate : JsValue → Option Int) (toStr : JsValue → String)
    (now : Int) (data : JsObject) (t : Int)
    (htruthy : (data.get "timestamp").truthy = true)
    (hparse : parseDate (data.get "timestamp") = some t)
    (h0 : 0 ≤ (dateOf t).year) (h1 : (dateOf t).year ≤ 9999) :
    ∃ row cell, rowData parseDate toStr now data = Except.ok row ∧
      row.head? = some (JsValue.string cell) ∧
      cell = String.mk (digits4 (dateOf t).year ++ '-' :: digits2 (dateOf t).month ++
        '-' :: digits2 (dateOf t).day ++ ' ' :: digits2 (hourOf t) ++
        ':' :: digits2 (minuteOf t) ++ ':' :: digits2 (secondOf t)) ∧
      cell.length = 19 ∧
      cell.toList = (isoChars t).take 10 ++ ' ' :: ((isoChars t).drop 11).take 8 ∧
      ((dateOf t).month.toNat < 100 ∧ (dateOf t).day.toNat < 100 ∧ (hourOf t).toNat < 100 ∧
        (minuteOf t).toNat < 100 ∧ (secondOf t).toNat < 100 ∧ (dateOf t).year.toNat < 10000) := by
  refine ⟨rowValues toStr (excelFormat t) data, excelFormat t, ?_, rfl,
    excelFormat_chars t h0 h1, ?_, ?_, ?_⟩
  · simp [rowData, excelTimestamp, htruthy, hparse]
  · rw [excelFormat_chars t h0 h1]
    simp [String.length, digits4, digits3, digits2]
  · rw [excelFormat_chars t h0 h1]
    simp [isoChars, isoYear, h0, h1, digits4, digits3, digits2]
  · have hb := date_fields_bounds t
    omega

/-- C30 (row width).  Every row `saveSurveyToExcel` builds has exactly 22 cells, as
many as there are header names in `createExcelFile` and in `createExcelTable`, whose
names are the same, and as the range `A1:V1` of both has columns. -/
theorem row_has_22_cells (parseDate : JsValue → Option Int) (toStr : JsValue → String)
    (now : Int) (data : JsObject) (row : List JsValue)
    (h : rowData parseDate toStr now data = Except.ok row) :
    row.length = 22 ∧ headerNames.length = 22 ∧ tableHeaderNames.length = 22 ∧
      rangeColumns headerRange = 22 ∧ rangeColumns tableAddress = 22 ∧
      headerNames = tableHeaderNames := by
  refine ⟨?_, rfl, rfl, by decide, by decide, rfl⟩
  unfold rowData at h
  split at h
  · cases h
  · cases h
    rfl

end Row

/-- Witness of `timestamp_cell_format`: the instant 2025-10-16T10:00:00.000Z. -/
theorem timestamp_cell_format_witness :
    (stampedSample.get "timestamp").truthy = true ∧
      (rowData sampleParse sampleToStr 0 stampedSample).toOption.bind List.head? =
        some (JsValue.string "2025-10-16 10:00:00") := by
  obtain ⟨row, cell, h1, h2, h3, _⟩ := timestamp_cell_format sampleParse sampleToStr 0
    stampedSample 1760608800000 (by decide) (by rfl) (by decide) (by decide)
  refine ⟨by decide, ?_⟩
  rw [h1]
  simp only [Except.toOption, Option.bind]
  rw [h2, h3]
  exact congrArg (fun c => some (JsValue.string c)) (by decide)

/-- Witness of `row_has_22_cells`: the row of a stamped submission. -/
theorem row_has_22_cells_witness :
    rowData sampleParse sampleToStr 0 stampedSample =
        Except.ok (rowValues sampleToStr (excelFormat 1760608800000) stampedSample) ∧
      (rowValues sampleToStr (excelFormat 1760608800000) stampedSample).length = 22 :=
  ⟨rfl, (row_has_22_cells sampleParse sampleToStr 0 stampedSample _ rfl).1⟩

section WidgetTheorems

/-- C26, at the failing input: with the survey open and nothing submitted, a click on
the close button closes the modal and passes nothing to `submitSurvey`, because the
listener hands the event object to `close` as `wasSubmitted`; the Escape key and a
click on the backdrop close it and submit one payload with `exited` true; and after a
submission with the submit button the modal is closed, one payload without `exited`
has been sent, and a later Escape sends nothing more. -/
theorem close_button_skips_exit_submission :
    openedWidget.modal = true ∧ openedWidget.sent.length = 0 ∧
      (handle openedWidget
        (PageEvent.closeButtonClick clickEvent sampleBrowser sampleAnswers)).modal = false ∧
      (handle openedWidget
        (PageEvent.closeButtonClick clickEvent sampleBrowser sampleAnswers)).sent.length = 0 ∧
      (handle openedWidget
        (PageEvent.keydown "Escape" sampleBrowser sampleAnswers)).sent.map
          (fun p => p.get "exited") = [JsValue.bool true] ∧
      (handle openedWidget
        (PageEvent.modalClick true sampleBrowser sampleAnswers)).sent.map
          (fun p => p.get "exited") = [JsValue.bool true] ∧
      (handle openedWidget (PageEvent.submitClick sampleBrowser sampleAnswers)).modal = false ∧
      (handle openedWidget (PageEvent.submitClick sampleBrowser sampleAnswers)).sent.map
          (fun p => p.get "exited") = [JsValue.undefined] ∧
      (handle (handle openedWidget (PageEvent.submitClick sampleBrowser sampleAnswers))
        (PageEvent.keydown "Escape" sampleBrowser sampleAnswers)).sent.length = 1 :=
  ⟨rfl, rfl, rfl, rfl, rfl, rfl, rfl, rfl, rfl⟩

theorem suppressed_handle (w : Widget) (e : PageEvent) (h : Suppressed w)
    (he : e.isForced = false) : Suppressed (handle w e) := by
  obtain ⟨h1, h2, h3, h4⟩ := h
  cases e with
  | mouseout clientY relatedTargetNull => simpa [handle, h2] using ⟨h1, h2, h3, h4⟩
  | fallbackTimeout => simpa [handle, h3] using ⟨h1, h2, h3, h4⟩
  | armTimeout => exact ⟨h1, h2, h3, h4⟩
  | fabClick => cases he
  | apiOpen => cases he
  | resetSession isMobile =>
    simp only [handle, h1, Bool.not_true, Bool.false_eq_true, ↓reduceIte]
    exact ⟨rfl, h2, h3, h4⟩
  | closeButtonClick event b a => simpa [handle, h4] using ⟨h1, h2, h3, h4⟩
  | modalClick onBackdrop b a => simpa [handle, h4] using ⟨h1, h2, h3, h4⟩
  | keydown key b a => simpa [handle, h4] using ⟨h1, h2, h3, h4⟩
  | showStep n => simpa [handle, h4] using ⟨h1, h2, h3, h4⟩
  | submitClick b a => simpa [handle, h4] using ⟨h1, h2, h3, h4⟩

theorem suppressed_foldl (evs : List PageEvent) (w : Widget) (h : Suppressed w)
    (he : ∀ e ∈ evs, e.isForced = false) : Suppressed (evs.foldl handle w) := by
  induction evs generalizing w with
  | nil => exact h
  | cons e rest ih =>
    simp only [List.foldl_cons]
    exact ih _ (suppressed_handle w e h (he e (List.mem_cons_self _ _)))
      (fun x hx => he x (List.mem_cons_of_mem _ hx))

/-- C29 (frequency cap).  When the stored state holds a last submission time that is
less than `ttlDays` = 28 days before the page is loaded, the script sets
`suppressAuto`, registers neither the `mouseout` listener nor the fallback timer, and
whatever happens on the page short of a request to open the survey (the feedback
button or `ExitSurvey.open()`), `resetSession` included, the survey stays closed;
a click on the feedback button opens it. -/
theorem ttl_suppresses_auto (st : StoredState) (sessionShown : Bool) (now engagedMs : Nat)
    (isMobile : Bool) (hts : st.lastTs ≠ 0)
    (hage : (now : Int) - (st.lastTs : Int) < (ttlDays : Int) * 86400000) :
    (loadPage (some st) sessionShown now engagedMs isMobile).suppressAuto = true ∧
      (loadPage (some st) sessionShown now engagedMs isMobile).mouseoutListener = false ∧
      (loadPage (some st) sessionShown now engagedMs isMobile).fallbackTimer = false ∧
      ∀ evs : List PageEvent, (∀ e ∈ evs, e.isForced = false) →
        (evs.foldl handle (loadPage (some st) sessionShown now engagedMs isMobile)).modal =
          false ∧
        (evs.foldl handle
          (loadPage (some st) sessionShown now engagedMs isMobile)).mouseoutListener = false ∧
        (evs.foldl handle
          (loadPage (some st) sessionShown now engagedMs isMobile)).fallbackTimer = false ∧
        (handle (evs.foldl handle (loadPage (some st) sessionShown now engagedMs isMobile))
          PageEvent.fabClick).modal = true := by
  have hs : (loadPage (some st) sessionShown now engagedMs isMobile).suppressAuto = true := by
    have h2 : (now : Int) - (st.lastTs : Int) < (ttlDays : Int) * (1000 * 60 * 60 * 24) := by
      simpa using hage
    simp only [loadPage, Bool.and_eq_true, decide_eq_true_eq]
    exact ⟨hts, h2⟩
  have h0 : Suppressed (loadPage (some st) sessionShown now engagedMs isMobile) := by
    refine ⟨hs, ?_, ?_, rfl⟩
    · have : (loadPage (some st) sessionShown now engagedMs isMobile).mouseoutListener =
          !(loadPage (some st) sessionShown now engagedMs isMobile).suppressAuto := rfl
      rw [this, hs]
      rfl
    · have : (loadPage (some st) sessionShown now engagedMs isMobile).fallbackTimer =
          (!(loadPage (some st) sessionShown now engagedMs isMobile).suppressAuto &&
            decide (fallbackDelay isMobile > 0)) := rfl
      rw [this, hs]
      rfl
  refine ⟨h0.1, h0.2.1, h0.2.2.1, ?_⟩
  intro evs hev
  obtain ⟨_, k2, k3, k4⟩ := suppressed_foldl evs _ h0 hev
  refine ⟨k4, k2, k3, ?_⟩
  simp [handle, trigger, openModal, k4]

end WidgetTheorems

/-- Witness of `ttl_suppresses_auto`: a submission at time 1000 and a page load one day
later on a mobile browser; a mouse leaving at the top and the fallback timer open
nothing, the feedback button does. -/
theorem ttl_suppresses_auto_witness :
    recentState.lastTs ≠ 0 ∧
      ((86401000 : Nat) : Int) - (recentState.lastTs : Int) < (ttlDays : Int) * 86400000 ∧
      ([PageEvent.armTimeout, PageEvent.mouseout 0 true, PageEvent.fallbackTimeout].foldl handle
        (loadPage (some recentState) false 86401000 0 true)).modal = false ∧
      (handle ([PageEvent.armTimeout, PageEvent.mouseout 0 true,
        PageEvent.fallbackTimeout].foldl handle
          (loadPage (some recentState) false 86401000 0 true)) PageEvent.fabClick).modal = true :=
  have h := (ttl_suppresses_auto recentState false 86401000 0 true (by decide) (by decide)).2.2.2
    [PageEvent.armTimeout, PageEvent.mouseout 0 true, PageEvent.fallbackTimeout]
    (by decide)
  ⟨by decide, by decide, h.1, h.2.2.2⟩

end SurveyServer
